import Mathlib

set_option maxHeartbeats 1000000
set_option maxRecDepth 10000

/-
  Verification development for the Mano compiler front end.

  Shallow embedding translated from the repository sources:
    - src/src/Lexer.cpp          (the lexer implementation: class Lexer with NextToken and
                                  the Scan* helpers; src/src/Lexer.h adds the Tokenize loop)
    - src/src/Parser.cpp, src/src/Parser.h, src/src/AST.h   (recursive-descent parser)
    - src/src/SemanticAnalyzer.h / SemanticAnalyzer.cpp     (three-pass semantic analyzer;
                                  the two files contain the same member definitions)

  Modelling conventions:
    - the source text is a list of characters together with the (line, column) counters the
      C++ Lexer maintains; string_view substrings are reconstructed from the consumed chars;
    - C++ null-pointer dereferences and out-of-bounds accesses (undefined behavior) are
      modelled as Fault.crash; C++ exceptions (std::runtime_error, caught by Analyze) are
      modelled as Fault.thrown;
    - the parser's ErrorAtCurrent prints and calls exit(1); it is modelled as an Except error
      carrying the current token's position and the message;
    - the parser's unbounded mutual recursion is given a fuel argument (an embedding
      artifact only: a fuel-exhaustion outcome is an artificial error that never occurs in
      the concrete runs below);
    - cctype character classes are the C locale / ASCII ones.
-/

/- ===================== Lexer data model (Lexer.cpp / Token.h) ===================== -/

inductive TokenType where
  | Identifier
  | Keyword
  | Number
  | String
  | Operator
  | Punctuation
  | EndOfFile
  | Unknown
deriving DecidableEq, Repr

structure Token where
  type : TokenType
  lexeme : String
  line : Nat
  column : Nat
deriving DecidableEq, Repr

/- The Lexer's mutable state: remaining input plus the line/column counters.
   (The C++ class keeps a byte offset into the full source; keeping the suffix is the
   same information.) -/
structure LexSt where
  rest : List Char
  line : Nat
  column : Nat
deriving DecidableEq, Repr

/- std::isspace in the C locale. -/
def isspaceChar (c : Char) : Bool :=
  c = ' ' || c = '\t' || c = '\n' || c = '\x0b' || c = '\x0c' || c = '\r'

def isdigitChar (c : Char) : Bool :=
  '0' ≤ c && c ≤ '9'

def isalphaChar (c : Char) : Bool :=
  ('a' ≤ c && c ≤ 'z') || ('A' ≤ c && c ≤ 'Z')

def isalnumChar (c : Char) : Bool :=
  isalphaChar c || isdigitChar c

/- Lexer::Advance: consume one character, updating line/column. -/
def Advance (st : LexSt) : LexSt :=
  match st.rest with
  | [] => st
  | c :: rs => if c = '\n' then ⟨rs, st.line + 1, 1⟩ else ⟨rs, st.line, st.column + 1⟩

/- The while (!IsAtEnd() && p (Peek())) Advance(); loop, returning the consumed characters
   and the final state.  Written with the Advance line/column update inlined so that the
   recursion is structural on the remaining input. -/
def TakeWhileSt (p : Char → Bool) : List Char → Nat → Nat → List Char × LexSt
  | [], line, col => ([], ⟨[], line, col⟩)
  | c :: rs, line, col =>
    if p c then
      let r := if c = '\n' then TakeWhileSt p rs (line + 1) 1 else TakeWhileSt p rs line (col + 1)
      (c :: r.1, r.2)
    else ([], ⟨c :: rs, line, col⟩)

/- Lexer::SkipWhitespace. -/
def SkipWhitespace (st : LexSt) : LexSt :=
  (TakeWhileSt isspaceChar st.rest st.line st.column).2

/- Lexer::IsKeyword (Lexer.cpp lines 118-124).  Note: the list does NOT contain
   let, const, switch, case, or default. -/
def IsKeyword (text : String) : Bool :=
  text = "var" || text = "fun" || text = "class" || text = "enum" ||
  text = "if" || text = "else" || text = "for" || text = "while" ||
  text = "break" || text = "continue" || text = "return" ||
  text = "int" || text = "uint" || text = "float" || text = "bool" || text = "string"

/- Lexer::ScanIdentifier.  The produced Token carries the line/column the Lexer holds
   AFTER the scan loop (the C++ constructs Token{type, text, line, column} at the end). -/
def ScanIdentifier (st : LexSt) : Token × LexSt :=
  let r := TakeWhileSt (fun c => isalnumChar c || c = '_') st.rest st.line st.column
  let text : String := ⟨r.1⟩
  (⟨if IsKeyword text then TokenType.Keyword else TokenType.Identifier, text, r.2.line, r.2.column⟩, r.2)

/- Lexer::ScanNumber. -/
def ScanNumber (st : LexSt) : Token × LexSt :=
  let r := TakeWhileSt isdigitChar st.rest st.line st.column
  match r.2.rest with
  | '.' :: _ =>
    let st2 := Advance r.2
    let r2 := TakeWhileSt isdigitChar st2.rest st2.line st2.column
    (⟨TokenType.Number, ⟨r.1 ++ '.' :: r2.1⟩, r2.2.line, r2.2.column⟩, r2.2)
  | _ => (⟨TokenType.Number, ⟨r.1⟩, r.2.line, r.2.column⟩, r.2)

/- The while loop inside Lexer::ScanString: consume until the closing quote or end of
   input; a backslash consumes the next character as well.  Returns the consumed
   characters and the final state. -/
def ScanStringLoop : List Char → Nat → Nat → List Char × LexSt
  | [], line, col => ([], ⟨[], line, col⟩)
  | c :: rs, line, col =>
    if c = '"' then ([], ⟨c :: rs, line, col⟩)
    else if c = '\\' then
      match rs with
      | [] => ([c], ⟨[], line, col + 1⟩)
      | d :: rs' =>
        let r := if d = '\n' then ScanStringLoop rs' (line + 1) 1 else ScanStringLoop rs' line (col + 2)
        (c :: d :: r.1, r.2)
    else
      let r := if c = '\n' then ScanStringLoop rs (line + 1) 1 else ScanStringLoop rs line (col + 1)
      (c :: r.1, r.2)

/- Lexer::ScanString (Lexer.cpp lines 145-167).  The lexeme is
   source.substr(start, offset - start - 1), i.e. everything consumed after the opening
   quote minus the final character: for a terminated string this strips the closing quote;
   for an unterminated one it DROPS THE LAST CONTENT CHARACTER.  No error is reported
   (the lexer has no diagnostics channel) and the token type is String in both cases. -/
def ScanString (st : LexSt) : Token × LexSt :=
  let st1 := Advance st
  let r := ScanStringLoop st1.rest st1.line st1.column
  match r.2.rest with
  | [] => (⟨TokenType.String, ⟨r.1.dropLast⟩, r.2.line, r.2.column⟩, r.2)
  | _ :: _ =>
    let st3 := Advance r.2
    (⟨TokenType.String, ⟨(r.1 ++ ['"']).dropLast⟩, st3.line, st3.column⟩, st3)

/- Lexer::IsOperator (Lexer.cpp lines 170-176).  Note: '^' is NOT in the set. -/
def IsOperator (c : Char) : Bool :=
  c = '+' || c = '-' || c = '*' || c = '/' ||
  c = '=' || c = '!' || c = '<' || c = '>' ||
  c = '&' || c = '|' || c = '%'

/- Lexer::ScanOperator (Lexer.cpp lines 179-196).  The only recognized two-character
   operators are "==", "!=" and "<>". -/
def ScanOperator (st : LexSt) : Token × LexSt :=
  match st.rest with
  | [] => (⟨TokenType.Operator, "", st.line, st.column⟩, st)
  | first :: _ =>
    let st1 := Advance st
    match st1.rest with
    | [] => (⟨TokenType.Operator, ⟨[first]⟩, st1.line, st1.column⟩, st1)
    | next :: _ =>
      if (first = '=' && next = '=') || (first = '!' && next = '=') ||
         (first = '<' && next = '>') then
        let st2 := Advance st1
        (⟨TokenType.Operator, ⟨[first, next]⟩, st2.line, st2.column⟩, st2)
      else
        (⟨TokenType.Operator, ⟨[first]⟩, st1.line, st1.column⟩, st1)

/- Lexer::IsPunctuation. -/
def IsPunctuation (c : Char) : Bool :=
  c = '(' || c = ')' || c = '\x7b' || c = '\x7d' ||
  c = '[' || c = ']' || c = ',' || c = ':' || c = ';'

/- Lexer::ScanPunctuation. -/
def ScanPunctuation (st : LexSt) : Token × LexSt :=
  match st.rest with
  | [] => (⟨TokenType.Punctuation, "", st.line, st.column⟩, st)
  | c :: _ =>
    let st1 := Advance st
    (⟨TokenType.Punctuation, ⟨[c]⟩, st1.line, st1.column⟩, st1)

/- Lexer::NextToken (Lexer.cpp lines 36-58). -/
def NextToken (st0 : LexSt) : Token × LexSt :=
  let st := SkipWhitespace st0
  match st.rest with
  | [] => (⟨TokenType.EndOfFile, "", st.line, st.column⟩, st)
  | c :: _ =>
    if isalphaChar c || c = '_' then ScanIdentifier st
    else if isdigitChar c then ScanNumber st
    else if c = '"' then ScanString st
    else if IsOperator c then ScanOperator st
    else if IsPunctuation c then ScanPunctuation st
    else
      let st' := Advance st
      (⟨TokenType.Unknown, ⟨[c]⟩, st'.line, st'.column⟩, st')

/- Lexer::Tokenize (Lexer.h lines 36-48): do { t = NextToken(); push } while (t ≠ EOF).
   The fuel rest.length + 1 suffices because every non-EndOfFile token consumes at least
   one character; this sufficiency is proved below (theorem for claim C8). -/
def TokenizeFuel : Nat → LexSt → List Token
  | 0, _ => []
  | fuel + 1, st =>
    let r := NextToken st
    if r.1.type = TokenType.EndOfFile then [r.1]
    else r.1 :: TokenizeFuel fuel r.2

def Tokenize (st : LexSt) : List Token :=
  TokenizeFuel (st.rest.length + 1) st

def TokenizeSource (s : String) : List Token :=
  Tokenize ⟨s.data, 1, 1⟩

/- Observer: the (kind, lexeme) projection of a token list. -/
def tokensTL (ts : List Token) : List (TokenType × String) :=
  ts.map fun t => (t.type, t.lexeme)

/- ===================== Parser data model (AST.h / Parser.h / Parser.cpp) ===================== -/

/- AST.h BinaryOperator. -/
inductive BinaryOperator where
  | Assign | LogicalOr | LogicalAnd | BitwiseOr | BitwiseXor | BitwiseAnd
  | Equal | NotEqual | Less | Greater | LessEqual | GreaterEqual
  | LeftShift | RightShift | Add | Subtract | Multiply | Divide | Modulo
deriving DecidableEq, Repr

/- AST.h TypeNode: name, array flag (never set by the parser, even for "[T]" names),
   isConst. -/
structure TypeN where
  name : String
  array : Bool
  isConst : Bool
deriving DecidableEq, Repr

/- SemanticAnalyzer.h Symbol::Kind. -/
inductive SymbolKind where
  | Variable | Function | Class | Enum | Type
deriving DecidableEq, Repr

/- SemanticAnalyzer.h Symbol.  The scope and declarationSite back-pointers are omitted:
   nothing in the analyzer reads them. -/
structure Symb where
  kind : SymbolKind
  name : String
  type : Option TypeN
  isInitialized : Bool
deriving DecidableEq, Repr

/- AST.h node hierarchy as a closed sum.  Annotation fields that the analyzer reads or
   writes are included (declaredType / resolvedType / symbol / evaluatedType /
   resolvedSymbol / resolvedFunction), plus BlockNode::blockScope (initialized to null by
   the constructor; a scope identity is modelled as a Nat index).  Annotation fields that
   no code ever reads or writes (functionScope, classScope, symbolsCollected,
   membersProcessed, enclosingFunction, hasValidReturnType, isInsideLoop, memberSymbol,
   objectType, argumentTypes, methods) are omitted, as are the IndexAccessNode and
   ObjectInstantiationNode variants, which the parser never constructs and which every
   analyzer switch treats by the  do-nothing default case.
   Parser.cpp stores the parsed annotation into VariableDeclarationNode as member "type"
   and the for-loop update expression as member "increment"; AST.h names these fields
   declaredType and update — the evident intended fields, used here. -/
inductive ANode where
  | program (declarations : List ANode)
  | varDecl (name : String) (declaredType : Option TypeN) (resolvedType : Option TypeN)
            (initializer : Option ANode) (symbol : Option Symb)
  | funDecl (name : String) (parameters : List (String × TypeN)) (returnType : Option TypeN)
            (body : Option ANode) (symbol : Option Symb)
  | classDecl (name : String) (body : Option ANode) (symbol : Option Symb)
  | enumDecl (name : String) (values : List String)
  | block (statements : List ANode) (blockScope : Option Nat)
  | classBlock (declarations : List ANode)
  | exprStmt (expression : ANode)
  | returnStmt (expression : Option ANode)
  | ifStmt (condition : ANode) (thenBranch : ANode) (elseBranch : Option ANode)
  | forStmt (finit : Option ANode) (condition : ANode) (update : ANode) (body : ANode)
  | whileStmt (condition : ANode) (body : ANode)
  | switchStmt (expression : ANode) (cases : List (ANode × ANode)) (defaultCase : Option ANode)
  | memberAccess (object : ANode) (memberName : String)
  | binaryExpr (left : ANode) (op : BinaryOperator) (right : ANode) (evaluatedType : Option TypeN)
  | unaryExpr (op : String) (operand : ANode)
  | literal (value : String)
  | identifier (name : String) (resolvedSymbol : Option Symb) (evaluatedType : Option TypeN)
  | breakStmt
  | continueStmt
  | arrayLiteral (elements : List ANode) (evaluatedType : Option TypeN)
  | funCall (name : String) (arguments : List ANode) (callTarget : Option ANode)
            (resolvedFunction : Option Symb)
deriving Repr

/- Parser state: the token vector and the m_current cursor. -/
structure PState where
  tokens : List Token
  current : Nat
deriving DecidableEq, Repr

/- The diagnostic ErrorAtCurrent emits before exit(1):
   [Line L, Column C] Error: message. -/
structure PErr where
  line : Nat
  column : Nat
  message : String
deriving DecidableEq, Repr

abbrev PM (α : Type) := StateT PState (Except PErr) α

/- Fallback token for out-of-range vector access (never reached on lexer output, which
   always ends with EndOfFile past which the cursor cannot advance). -/
def eofFallback : Token := ⟨TokenType.EndOfFile, "", 0, 0⟩

/- Parser::Peek. -/
def PeekP : PM Token := do
  let s ← get
  pure (s.tokens.getD s.current eofFallback)

/- Parser::Previous. -/
def PreviousP : PM Token := do
  let s ← get
  pure (s.tokens.getD (s.current - 1) eofFallback)

/- Parser::IsAtEnd. -/
def IsAtEndP : PM Bool := do
  pure ((← PeekP).type == TokenType.EndOfFile)

/- Parser::Advance. -/
def AdvanceP : PM Token := do
  if !(← IsAtEndP) then
    modify fun s => ⟨s.tokens, s.current + 1⟩
  PreviousP

/- Parser::CheckType. -/
def CheckTypeP (tt : TokenType) : PM Bool := do
  if (← IsAtEndP) then pure false
  else pure ((← PeekP).type == tt)

/- Parser::Match. -/
def MatchP : List TokenType → PM Bool
  | [] => pure false
  | tt :: rest => do
    if (← CheckTypeP tt) then
      let _ ← AdvanceP
      pure true
    else MatchP rest

/- Parser::MatchKeyword. -/
def MatchKeywordP (expected : String) : PM Bool := do
  if (← CheckTypeP TokenType.Keyword) && ((← PeekP).lexeme == expected) then
    let _ ← AdvanceP
    pure true
  else pure false

/- Parser::MatchPunctuation. -/
def MatchPunctuationP (expected : String) : PM Bool := do
  if (← CheckTypeP TokenType.Punctuation) && ((← PeekP).lexeme == expected) then
    let _ ← AdvanceP
    pure true
  else pure false

/- Parser::ErrorAtCurrent: emit [Line, Column] Error: message and exit(1). -/
def ErrorAtCurrentA {α : Type} (message : String) : PM α := do
  let t ← PeekP
  throw ⟨t.line, t.column, message⟩

/- Parser::Consume. -/
def ConsumeP (tt : TokenType) (message : String) : PM Token := do
  if (← CheckTypeP tt) then AdvanceP
  else ErrorAtCurrentA message

/- Parser::ConsumePunctuation. -/
def ConsumePunctuationP (expected : String) (message : String) : PM Token := do
  if !(← IsAtEndP) && ((← PeekP).type == TokenType.Punctuation)
      && ((← PeekP).lexeme == expected) then
    AdvanceP
  else ErrorAtCurrentA message

/- Fuel-exhaustion marker (embedding artifact; see the header comment). -/
def fuelErr {α : Type} : PM α := throw ⟨0, 0, "[fuel exhausted]"⟩

/- ===================== Parser functions (Parser.cpp) ===================== -/

/- Parser::ParseBreakStatement (note: non-recursive).  The continue variant reuses the
   break message, exactly as in the source. -/
def ParseBreakStatementF : PM ANode := do
  let _ ← ConsumePunctuationP ";" "Expected ';' after 'break'."
  pure ANode.breakStmt

def ParseContinueStatementF : PM ANode := do
  let _ ← ConsumePunctuationP ";" "Expected ';' after 'break'."
  pure ANode.continueStmt

mutual

/- Parser::ParseProgram. -/
def ParseProgramF : Nat → PM ANode
  | 0 => fuelErr
  | fuel + 1 => do
    let decls ← ParseProgramLoopF fuel []
    pure (ANode.program decls)

def ParseProgramLoopF : Nat → List ANode → PM (List ANode)
  | 0, _ => fuelErr
  | fuel + 1, acc => do
    if !(← IsAtEndP) then
      let d ← ParseDeclarationF fuel
      ParseProgramLoopF fuel (acc ++ [d])
    else pure acc

/- Parser::ParseDeclaration. -/
def ParseDeclarationF : Nat → PM ANode
  | 0 => fuelErr
  | fuel + 1 => do
    if (← MatchKeywordP "let") then ParseVariableDeclarationF fuel true
    else if (← MatchKeywordP "var") then ParseVariableDeclarationF fuel false
    else if (← MatchKeywordP "fun") then ParseFunctionDeclarationF fuel
    else if (← MatchKeywordP "class") then ParseClassDeclarationF fuel
    else if (← MatchKeywordP "enum") then ParseEnumDeclarationF fuel
    else ErrorAtCurrentA "Expected declaration."

/- Parser::ParseType. -/
def ParseTypeF : Nat → Bool → Bool → PM TypeN
  | 0, _, _ => fuelErr
  | fuel + 1, isConst, allowArrayType => do
    if (← MatchP [TokenType.Keyword]) then do
      pure ⟨(← PreviousP).lexeme, false, isConst⟩
    else if (← MatchP [TokenType.Identifier]) then do
      pure ⟨(← PreviousP).lexeme, false, isConst⟩
    else if (← MatchP [TokenType.Punctuation]) then do
      if (← PreviousP).lexeme == "[" then do
        if !allowArrayType then
          ErrorAtCurrentA "Nested arrays not supported."
        else do
          let arrayType ← ParseTypeF fuel false false
          let _ ← ConsumePunctuationP "]" "Expected ']' after array element type."
          pure ⟨"[" ++ arrayType.name ++ "]", false, isConst⟩
      else ErrorAtCurrentA "Expected type name."
    else ErrorAtCurrentA "Expected type name."

/- Parser::ParseVariableDeclaration.  The parsed annotation is stored in the
   declaredType field (see the ANode comment). -/
def ParseVariableDeclarationF : Nat → Bool → PM ANode
  | 0, _ => fuelErr
  | fuel + 1, isConst => do
    let nameTok ← ConsumeP TokenType.Identifier "Expected variable name."
    let _ ← ConsumePunctuationP ":" "Expected ':' after variable name."
    let typeNode ← ParseTypeF fuel isConst true
    if (← MatchP [TokenType.Operator]) && ((← PreviousP).lexeme == "=") then do
      let initializer ← ParseExpressionF fuel
      let _ ← ConsumePunctuationP ";" "Expected ';' after variable declaration."
      pure (ANode.varDecl nameTok.lexeme (some typeNode) none (some initializer) none)
    else
      ErrorAtCurrentA ("Expected '=' after type for "
        ++ (if isConst then "constant" else "variable") ++ " declaration.")

/- Parser::ParseFunctionDeclaration. -/
def ParseFunctionDeclarationF : Nat → PM ANode
  | 0 => fuelErr
  | fuel + 1 => do
    let nameTok ← ConsumeP TokenType.Identifier "Expected function name."
    let _ ← ConsumePunctuationP "(" "Expected '(' after function name."
    let params ←
      (do
        if (← CheckTypeP TokenType.Identifier) then ParseParameterListF fuel
        else pure [])
    let _ ← ConsumePunctuationP ")" "Expected ')' after parameters."
    let returnType ←
      (do
        if (← CheckTypeP TokenType.Punctuation) && ((← PeekP).lexeme == ":") then do
          let _ ← AdvanceP
          let rt ← ParseTypeF fuel false true
          pure (some rt)
        else pure none)
    let body ← ParseBlockF fuel
    pure (ANode.funDecl nameTok.lexeme params returnType (some body) none)

/- Parser::ParseParameterList. -/
def ParseParameterListF : Nat → PM (List (String × TypeN))
  | 0 => fuelErr
  | fuel + 1 => do
    let first ←
      (do
        if (← CheckTypeP TokenType.Identifier) then do
          let n ← ConsumeP TokenType.Identifier "Expected parameter name."
          let _ ← ConsumePunctuationP ":" "Expected ':' after parameter name."
          let isConst := (← CheckTypeP TokenType.Keyword) && ((← PeekP).lexeme == "const")
          if isConst then do
            let _ ← AdvanceP
            let t ← ParseTypeF fuel isConst true
            pure [(n.lexeme, t)]
          else do
            let t ← ParseTypeF fuel isConst true
            pure [(n.lexeme, t)]
        else pure [])
    ParseParamLoopF fuel first

def ParseParamLoopF : Nat → List (String × TypeN) → PM (List (String × TypeN))
  | 0, _ => fuelErr
  | fuel + 1, acc => do
    if (← CheckTypeP TokenType.Punctuation) && ((← PeekP).lexeme == ",") then do
      let _ ← AdvanceP
      let n ← ConsumeP TokenType.Identifier "Expected parameter name after comma."
      let _ ← ConsumePunctuationP ":" "Expected ':' after parameter name."
      let isConst := (← CheckTypeP TokenType.Keyword) && ((← PeekP).lexeme == "const")
      if isConst then do
        let _ ← AdvanceP
        let t ← ParseTypeF fuel isConst true
        ParseParamLoopF fuel (acc ++ [(n.lexeme, t)])
      else do
        let t ← ParseTypeF fuel isConst true
        ParseParamLoopF fuel (acc ++ [(n.lexeme, t)])
    else pure acc

/- Parser::ParseClassDeclaration. -/
def ParseClassDeclarationF : Nat → PM ANode
  | 0 => fuelErr
  | fuel + 1 => do
    let nameTok ← ConsumeP TokenType.Identifier "Expected class name."
    let body ← ParseClassBlockF fuel
    pure (ANode.classDecl nameTok.lexeme (some body) none)

/- Parser::ParseEnumDeclaration. -/
def ParseEnumDeclarationF : Nat → PM ANode
  | 0 => fuelErr
  | fuel + 1 => do
    let nameTok ← ConsumeP TokenType.Identifier "Expected enum name."
    let values ← ParseEnumBlockF fuel
    pure (ANode.enumDecl nameTok.lexeme values)

/- Parser::ParseEnumBlock. -/
def ParseEnumBlockF : Nat → PM (List String)
  | 0 => fuelErr
  | fuel + 1 => do
    let _ ← ConsumePunctuationP "\x7b" "Expected '\x7b' to start enum body."
    if (← CheckTypeP TokenType.Punctuation) && ((← PeekP).lexeme == "\x7d") then do
      let _ ← AdvanceP
      pure []
    else do
      let values ← ParseEnumLoopF fuel []
      let _ ← ConsumePunctuationP "\x7d" "Expected '\x7d' to close enum body."
      pure values

def ParseEnumLoopF : Nat → List String → PM (List String)
  | 0, _ => fuelErr
  | fuel + 1, acc => do
    let n ← ConsumeP TokenType.Identifier "Expected enum name."
    let acc := acc ++ [n.lexeme]
    if (← CheckTypeP TokenType.Punctuation) && ((← PeekP).lexeme == ",") then do
      let _ ← AdvanceP
      if (← CheckTypeP TokenType.Punctuation) && ((← PeekP).lexeme == "\x7d") then
        pure acc
      else ParseEnumLoopF fuel acc
    else pure acc

/- Parser::ParseBlock. -/
def ParseBlockF : Nat → PM ANode
  | 0 => fuelErr
  | fuel + 1 => do
    let _ ← ConsumePunctuationP "\x7b" "Expected '\x7b' to start a block."
    let stmts ← ParseBlockLoopF fuel []
    let _ ← ConsumePunctuationP "\x7d" "Expected '\x7d' to close block."
    pure (ANode.block stmts none)

def ParseBlockLoopF : Nat → List ANode → PM (List ANode)
  | 0, _ => fuelErr
  | fuel + 1, acc => do
    let ct ← CheckTypeP TokenType.Punctuation
    let pk ← PeekP
    if !ct || pk.lexeme != "\x7d" then do
      let kw ← CheckTypeP TokenType.Keyword
      if kw && (pk.lexeme == "let" || pk.lexeme == "var" || pk.lexeme == "fun"
          || pk.lexeme == "class" || pk.lexeme == "enum") then do
        let d ← ParseDeclarationF fuel
        ParseBlockLoopF fuel (acc ++ [d])
      else do
        let s ← ParseStatementF fuel
        ParseBlockLoopF fuel (acc ++ [s])
    else pure acc

/- Parser::ParseClassBlock. -/
def ParseClassBlockF : Nat → PM ANode
  | 0 => fuelErr
  | fuel + 1 => do
    let _ ← ConsumePunctuationP "\x7b" "Expected '\x7b' to start a class block."
    let decls ← ParseClassBlockLoopF fuel []
    let _ ← ConsumePunctuationP "\x7d" "Expected '\x7d' to close class block."
    pure (ANode.classBlock decls)

def ParseClassBlockLoopF : Nat → List ANode → PM (List ANode)
  | 0, _ => fuelErr
  | fuel + 1, acc => do
    let ct ← CheckTypeP TokenType.Punctuation
    let pk ← PeekP
    if !ct || pk.lexeme != "\x7d" then do
      let kw ← CheckTypeP TokenType.Keyword
      if kw && (pk.lexeme == "let" || pk.lexeme == "var" || pk.lexeme == "fun"
          || pk.lexeme == "class" || pk.lexeme == "enum") then do
        let d ← ParseDeclarationF fuel
        ParseClassBlockLoopF fuel (acc ++ [d])
      else
        ErrorAtCurrentA "Expected declaration."
    else pure acc

/- Parser::ParseStatement. -/
def ParseStatementF : Nat → PM ANode
  | 0 => fuelErr
  | fuel + 1 => do
    if (← MatchKeywordP "if") then ParseIfStatementF fuel
    else if (← MatchKeywordP "for") then ParseForStatementF fuel
    else if (← MatchKeywordP "while") then ParseWhileStatementF fuel
    else if (← MatchKeywordP "return") then ParseReturnStatementF fuel
    else if (← MatchKeywordP "break") then ParseBreakStatementF
    else if (← MatchKeywordP "continue") then ParseContinueStatementF
    else if (← MatchKeywordP "switch") then ParseSwitchStatementF fuel
    else do
      let expression ← ParseExpressionF fuel
      let isAssignmentNode :=
        match expression with
        | ANode.binaryExpr _ BinaryOperator.Assign _ _ => true
        | _ => false
      let isFunctionCallNode :=
        match expression with
        | ANode.funCall _ _ _ _ => true
        | _ => false
      if isAssignmentNode || isFunctionCallNode then do
        let _ ← ConsumePunctuationP ";" "Expected ';' after expression statement."
        pure (ANode.exprStmt expression)
      else
        ErrorAtCurrentA "Expected statement."

/- Parser::ParseIfStatement. -/
def ParseIfStatementF : Nat → PM ANode
  | 0 => fuelErr
  | fuel + 1 => do
    let _ ← ConsumePunctuationP "(" "Expected '(' after 'if'."
    let condition ← ParseExpressionF fuel
    let _ ← ConsumePunctuationP ")" "Expected ')' after if condition."
    let thenBranch ← ParseBlockF fuel
    if (← MatchKeywordP "else") then do
      let elseBranch ← ParseBlockF fuel
      pure (ANode.ifStmt condition thenBranch (some elseBranch))
    else
      pure (ANode.ifStmt condition thenBranch none)

/- Parser::ParseForStatement.  The parsed update expression (named increment in
   Parser.cpp) lands in the update field of the AST node. -/
def ParseForStatementF : Nat → PM ANode
  | 0 => fuelErr
  | fuel + 1 => do
    let _ ← ConsumePunctuationP "(" "Expected '(' after 'for'."
    let finit ←
      (do
        if (← MatchKeywordP "var") then do
          let i ← ParseVariableDeclarationF fuel false
          pure (some i)
        else pure none)
    let condition ← ParseExpressionF fuel
    let _ ← ConsumePunctuationP ";" "Expected ';' after for condition."
    let increment ← ParseExpressionF fuel
    let _ ← ConsumePunctuationP ")" "Expected ')' after for clauses."
    let body ← ParseBlockF fuel
    pure (ANode.forStmt finit condition increment body)

/- Parser::ParseWhileStatement. -/
def ParseWhileStatementF : Nat → PM ANode
  | 0 => fuelErr
  | fuel + 1 => do
    let _ ← ConsumePunctuationP "(" "Expected '(' after 'while'."
    let condition ← ParseExpressionF fuel
    let _ ← ConsumePunctuationP ")" "Expected ')' after while condition."
    let body ← ParseBlockF fuel
    pure (ANode.whileStmt condition body)

/- Parser::ParseReturnStatement. -/
def ParseReturnStatementF : Nat → PM ANode
  | 0 => fuelErr
  | fuel + 1 => do
    let ct ← CheckTypeP TokenType.Punctuation
    let pk ← PeekP
    let e ←
      (do
        if !ct || pk.lexeme != ";" then do
          let ex ← ParseExpressionF fuel
          pure (some ex)
        else pure none)
    let _ ← ConsumePunctuationP ";" "Expected ';' after return statement."
    pure (ANode.returnStmt e)

/- Parser::ParseSwitchStatement. -/
def ParseSwitchStatementF : Nat → PM ANode
  | 0 => fuelErr
  | fuel + 1 => do
    let _ ← ConsumePunctuationP "(" "Expected '(' after 'switch'."
    let e ← ParseExpressionF fuel
    let _ ← ConsumePunctuationP ")" "Expected ')' after switch expression."
    let _ ← ConsumePunctuationP "\x7b" "Expected '\x7b' to start switch body."
    let r ← ParseSwitchLoopF fuel [] none
    let _ ← ConsumePunctuationP "\x7d" "Expected '\x7d' to close switch body."
    pure (ANode.switchStmt e r.1 r.2)

def ParseSwitchLoopF : Nat → List (ANode × ANode) → Option ANode →
    PM (List (ANode × ANode) × Option ANode)
  | 0, _, _ => fuelErr
  | fuel + 1, cases, defaultCase => do
    let ct ← CheckTypeP TokenType.Punctuation
    let pk ← PeekP
    if !ct || pk.lexeme != "\x7d" then do
      if (← MatchKeywordP "case") then do
        let caseExpr ← ParseExpressionF fuel
        let _ ← ConsumePunctuationP ":" "Expected ':' after case expression."
        let caseBlock ← ParseBlockF fuel
        ParseSwitchLoopF fuel (cases ++ [(caseExpr, caseBlock)]) defaultCase
      else if (← MatchKeywordP "default") then do
        let _ ← ConsumePunctuationP ":" "Expected ':' after 'default'."
        let defaultBlock ← ParseBlockF fuel
        match defaultCase with
        | some _ => ErrorAtCurrentA "Multiple default clauses in switch statement."
        | none => ParseSwitchLoopF fuel cases (some defaultBlock)
      else
        ErrorAtCurrentA "Expected 'case' or 'default' in switch statement."
    else pure (cases, defaultCase)

/- Parser::ParseExpression. -/
def ParseExpressionF : Nat → PM ANode
  | 0 => fuelErr
  | fuel + 1 => ParseAssignmentExpressionF fuel

/- Parser::ParseAssignmentExpression. -/
def ParseAssignmentExpressionF : Nat → PM ANode
  | 0 => fuelErr
  | fuel + 1 => do
    let left ← ParseLogicalOrExpressionF fuel
    if (← CheckTypeP TokenType.Operator) && ((← PeekP).lexeme == "=") then do
      let _ ← AdvanceP
      let right ← ParseAssignmentExpressionF fuel
      pure (ANode.binaryExpr left BinaryOperator.Assign right none)
    else pure left

/- Parser::ParseLogicalOrExpression. -/
def ParseLogicalOrExpressionF : Nat → PM ANode
  | 0 => fuelErr
  | fuel + 1 => do
    let e ← ParseLogicalAndExpressionF fuel
    ParseLogicalOrLoopF fuel e

def ParseLogicalOrLoopF : Nat → ANode → PM ANode
  | 0, _ => fuelErr
  | fuel + 1, e => do
    if (← CheckTypeP TokenType.Operator) && ((← PeekP).lexeme == "||") then do
      let _ ← AdvanceP
      let right ← ParseLogicalAndExpressionF fuel
      ParseLogicalOrLoopF fuel (ANode.binaryExpr e BinaryOperator.LogicalOr right none)
    else pure e

/- Parser::ParseLogicalAndExpression. -/
def ParseLogicalAndExpressionF : Nat → PM ANode
  | 0 => fuelErr
  | fuel + 1 => do
    let e ← ParseEqualityExpressionF fuel
    ParseLogicalAndLoopF fuel e

def ParseLogicalAndLoopF : Nat → ANode → PM ANode
  | 0, _ => fuelErr
  | fuel + 1, e => do
    if (← CheckTypeP TokenType.Operator) && ((← PeekP).lexeme == "&&") then do
      let _ ← AdvanceP
      let right ← ParseEqualityExpressionF fuel
      ParseLogicalAndLoopF fuel (ANode.binaryExpr e BinaryOperator.LogicalAnd right none)
    else pure e

/- Parser::ParseEqualityExpression. -/
def ParseEqualityExpressionF : Nat → PM ANode
  | 0 => fuelErr
  | fuel + 1 => do
    let e ← ParseRelationalExpressionF fuel
    ParseEqualityLoopF fuel e

def ParseEqualityLoopF : Nat → ANode → PM ANode
  | 0, _ => fuelErr
  | fuel + 1, e => do
    if (← CheckTypeP TokenType.Operator)
        && (((← PeekP).lexeme == "==") || ((← PeekP).lexeme == "!=")) then do
      let opTok ← AdvanceP
      let right ← ParseRelationalExpressionF fuel
      let bop := if opTok.lexeme == "==" then BinaryOperator.Equal else BinaryOperator.NotEqual
      ParseEqualityLoopF fuel (ANode.binaryExpr e bop right none)
    else pure e

/- Parser::ParseRelationalExpression (Parser.cpp lines 515-540): the relational operator
   is OPTIONAL, NOT REPEATING — at most one is consumed per call (if, not while). -/
def ParseRelationalExpressionF : Nat → PM ANode
  | 0 => fuelErr
  | fuel + 1 => do
    let e ← ParseAdditiveExpressionF fuel
    if (← CheckTypeP TokenType.Operator) then do
      let op := (← PeekP).lexeme
      if op == "<" || op == ">" || op == "<=" || op == ">=" then do
        let _ ← AdvanceP
        let right ← ParseAdditiveExpressionF fuel
        let bop :=
          if op == "<" then BinaryOperator.Less
          else if op == ">" then BinaryOperator.Greater
          else if op == "<=" then BinaryOperator.LessEqual
          else BinaryOperator.GreaterEqual
        pure (ANode.binaryExpr e bop right none)
      else pure e
    else pure e

/- Parser::ParseAdditiveExpression. -/
def ParseAdditiveExpressionF : Nat → PM ANode
  | 0 => fuelErr
  | fuel + 1 => do
    let e ← ParseMultiplicativeExpressionF fuel
    ParseAdditiveLoopF fuel e

def ParseAdditiveLoopF : Nat → ANode → PM ANode
  | 0, _ => fuelErr
  | fuel + 1, e => do
    if (← CheckTypeP TokenType.Operator)
        && (((← PeekP).lexeme == "+") || ((← PeekP).lexeme == "-")) then do
      let opTok ← AdvanceP
      let right ← ParseMultiplicativeExpressionF fuel
      let bop := if opTok.lexeme == "+" then BinaryOperator.Add else BinaryOperator.Subtract
      ParseAdditiveLoopF fuel (ANode.binaryExpr e bop right none)
    else pure e

/- Parser::ParseMultiplicativeExpression. -/
def ParseMultiplicativeExpressionF : Nat → PM ANode
  | 0 => fuelErr
  | fuel + 1 => do
    let e ← ParseUnaryExpressionF fuel
    ParseMultiplicativeLoopF fuel e

def ParseMultiplicativeLoopF : Nat → ANode → PM ANode
  | 0, _ => fuelErr
  | fuel + 1, e => do
    if (← CheckTypeP TokenType.Operator)
        && (((← PeekP).lexeme == "*") || ((← PeekP).lexeme == "/")
            || ((← PeekP).lexeme == "%")) then do
      let opTok ← AdvanceP
      let right ← ParseUnaryExpressionF fuel
      let bop :=
        if opTok.lexeme == "*" then BinaryOperator.Multiply
        else if opTok.lexeme == "/" then BinaryOperator.Divide
        else BinaryOperator.Modulo
      ParseMultiplicativeLoopF fuel (ANode.binaryExpr e bop right none)
    else pure e

/- Parser::ParseUnaryExpression.  Quirk kept from the source: Match consumes ANY operator
   token; if it is not "-" or "!" the parse falls through to ParsePrimaryExpression with
   that operator token already consumed. -/
def ParseUnaryExpressionF : Nat → PM ANode
  | 0 => fuelErr
  | fuel + 1 => do
    if (← MatchP [TokenType.Operator]) then do
      let prev ← PreviousP
      if prev.lexeme == "-" || prev.lexeme == "!" then do
        let operand ← ParseUnaryExpressionF fuel
        pure (ANode.unaryExpr prev.lexeme operand)
      else ParsePrimaryExpressionF fuel
    else ParsePrimaryExpressionF fuel

/- Parser::ParseArgumentList. -/
def ParseArgumentListF : Nat → PM (List ANode)
  | 0 => fuelErr
  | fuel + 1 => do
    let ct ← CheckTypeP TokenType.Punctuation
    let pk ← PeekP
    if !ct || pk.lexeme != ")" then do
      let a ← ParseExpressionF fuel
      ParseArgListLoopF fuel [a]
    else pure []

def ParseArgListLoopF : Nat → List ANode → PM (List ANode)
  | 0, _ => fuelErr
  | fuel + 1, acc => do
    if (← CheckTypeP TokenType.Punctuation) && ((← PeekP).lexeme == ",") then do
      let _ ← AdvanceP
      let a ← ParseExpressionF fuel
      ParseArgListLoopF fuel (acc ++ [a])
    else pure acc

/- Parser::ParsePrimaryExpression. -/
def ParsePrimaryExpressionF : Nat → PM ANode
  | 0 => fuelErr
  | fuel + 1 => do
    if (← MatchP [TokenType.Identifier]) then do
      let name := (← PreviousP).lexeme
      if (← CheckTypeP TokenType.Punctuation) && ((← PeekP).lexeme == "(") then do
        let _ ← AdvanceP
        let args ← ParseArgumentListF fuel
        let _ ← ConsumePunctuationP ")" "Expected ')' after arguments"
        pure (ANode.funCall name args none none)
      else
        ParsePostfixLoopF fuel (ANode.identifier name none none)
    else if (← MatchP [TokenType.Number, TokenType.String, TokenType.Keyword]) then do
      pure (ANode.literal (← PreviousP).lexeme)
    else if (← MatchPunctuationP "(") then do
      let e ← ParseExpressionF fuel
      let _ ← ConsumePunctuationP ")" "Expected ')' after expression."
      pure e
    else if (← MatchPunctuationP "[") then do
      if (← CheckTypeP TokenType.Punctuation) && ((← PeekP).lexeme == "]") then do
        let _ ← AdvanceP
        pure (ANode.arrayLiteral [] none)
      else do
        let elems ← ParseExpressionListF fuel
        let _ ← ConsumePunctuationP "]" "Expected ']' after array elements."
        pure (ANode.arrayLiteral elems none)
    else ErrorAtCurrentA "Expected expression"

/- The while (true) member-access / method-call loop inside ParsePrimaryExpression. -/
def ParsePostfixLoopF : Nat → ANode → PM ANode
  | 0, _ => fuelErr
  | fuel + 1, e => do
    if (← MatchPunctuationP ".") then do
      let m ← ConsumeP TokenType.Identifier "Expected member name after '.'"
      ParsePostfixLoopF fuel (ANode.memberAccess e m.lexeme)
    else if (← CheckTypeP TokenType.Punctuation) && ((← PeekP).lexeme == "(") then do
      let _ ← AdvanceP
      let args ← ParseArgumentListF fuel
      let _ ← ConsumePunctuationP ")" "Expected ')' after arguments"
      ParsePostfixLoopF fuel (ANode.funCall "" args (some e) none)
    else pure e

/- Parser::ParseExpressionList. -/
def ParseExpressionListF : Nat → PM (List ANode)
  | 0 => fuelErr
  | fuel + 1 => do
    let a ← ParseExpressionF fuel
    ParseExprListLoopF fuel [a]

def ParseExprListLoopF : Nat → List ANode → PM (List ANode)
  | 0, _ => fuelErr
  | fuel + 1, acc => do
    if (← CheckTypeP TokenType.Punctuation) && ((← PeekP).lexeme == ",") then do
      let _ ← AdvanceP
      let a ← ParseExpressionF fuel
      ParseExprListLoopF fuel (acc ++ [a])
    else pure acc

end

/- Run the parser on a token stream (cursor starts at 0), as Compiler::Run does.
   The fuel is generous for the concrete programs below; fuel exhaustion would surface
   as the artificial "[fuel exhausted]" diagnostic, which never occurs in the theorems. -/
def ParseTokens (tokens : List Token) : Except PErr ANode :=
  match (ParseProgramF ((tokens.length + 1) * 40)).run ⟨tokens, 0⟩ with
  | Except.ok (a, _) => Except.ok a
  | Except.error e => Except.error e

def ParseSource (s : String) : Except PErr ANode :=
  ParseTokens (TokenizeSource s)

/- Observer: the message of a parse error, if any. -/
def parseErrMsg {α : Type} : Except PErr α → Option String
  | Except.error e => some e.message
  | Except.ok _ => none

/- ===================== Semantic analyzer (SemanticAnalyzer.h / .cpp) ===================== -/

/- How a run of analyzer code ends abnormally: crash models C++ undefined behavior
   (null-pointer dereference, out-of-bounds access), which the process does not survive;
   thrown models a std::exception, which Analyze catches. -/
inductive Fault where
  | crash (message : String)
  | thrown (message : String)
deriving DecidableEq, Repr

/- A Scope's symbol map (std::unordered_map<std::string, unique_ptr<Symbol>>), as an
   association list.  The parent pointer is implicit: a scope's parent is the next entry
   in the analyzer's scope stack, exactly how PushScope wires it. -/
abbrev ScopeM := List (String × Symb)

/- The analyzer's member state: scopeStack (head = innermost), errors, loopDepth, and
   currentFunction, which NO code in the source ever assigns. -/
structure FunInfo where
  name : String
  returnType : Option TypeN
deriving DecidableEq, Repr

structure SemSt where
  scopeStack : List ScopeM
  errors : List String
  loopDepth : Nat
  currentFunction : Option FunInfo
deriving DecidableEq, Repr

/- SemanticAnalyzer::Error. -/
def ErrorS (message : String) (st : SemSt) : SemSt :=
  ⟨st.scopeStack, st.errors ++ [message], st.loopDepth, st.currentFunction⟩

/- SemanticAnalyzer::PushScope: the new scope's parent is the current top. -/
def PushScopeS (st : SemSt) : SemSt :=
  ⟨[] :: st.scopeStack, st.errors, st.loopDepth, st.currentFunction⟩

/- SemanticAnalyzer::PopScope (guarded: no-op on an empty stack). -/
def PopScopeS (st : SemSt) : SemSt :=
  ⟨st.scopeStack.tail, st.errors, st.loopDepth, st.currentFunction⟩

/- unordered_map::operator[] followed by assignment: insert or overwrite. -/
def scopeInsert (name : String) (sym : Symb) (sc : ScopeM) : ScopeM :=
  if sc.any (fun p => p.1 == name) then
    sc.map (fun p => if p.1 == name then (name, sym) else p)
  else sc ++ [(name, sym)]

/- currentScope()->symbols[name] = symbol; crashes when the scope stack is empty
   (currentScope() returns nullptr). -/
def AddSymbolS (name : String) (sym : Symb) (st : SemSt) : Except Fault Unit × SemSt :=
  match st.scopeStack with
  | [] => (Except.error (Fault.crash "null dereference: currentScope() is null"), st)
  | sc :: rest =>
    (Except.ok (), ⟨scopeInsert name sym sc :: rest, st.errors, st.loopDepth, st.currentFunction⟩)

/- Scope::Lookup: search the current scope, then the parent chain (= the rest of the
   stack). -/
def ScopeLookup (name : String) : List ScopeM → Option Symb
  | [] => none
  | sc :: rest =>
    match sc.find? (fun p => p.1 == name) with
    | some p => some p.2
    | none => ScopeLookup name rest

/- SemanticAnalyzer::CloneType: make_unique<TypeNode>(*type) — dereferences the argument,
   so a null argument is a crash. -/
def CloneType : Option TypeN → Except Fault TypeN
  | none => Except.error (Fault.crash "null dereference: CloneType of null TypeNode")
  | some t => Except.ok t

/- SemanticAnalyzer::IsArrayType: name.size() > 2 && front == '[' && back == ']'
   (short-circuit keeps front/back off empty names). -/
def IsArrayType (t : TypeN) : Bool :=
  t.name.length > 2 && t.name.data.head? == some '[' && t.name.data.getLast? == some ']'

/- substr(1, size - 2): the element-type name between the brackets. -/
def elemName (s : String) : String :=
  ⟨(s.data.drop 1).dropLast⟩

/- SemanticAnalyzer::CheckTypeCompatibility together with CheckArrayCompatibility
   (mutual recursion in the source, which strips one bracket pair per step and therefore
   recurses at most name-length deep; the structural fuel below is strictly larger, so
   the fuel-exhaustion branch is unreachable). -/
def CheckTypeCompatibilityFuel : Nat → TypeN → TypeN → Bool
  | 0, _, _ => false
  | fuel + 1, t1, t2 =>
    if t1.name == t2.name then true
    else if IsArrayType t1 && IsArrayType t2 then
      CheckTypeCompatibilityFuel fuel ⟨elemName t1.name, false, false⟩ ⟨elemName t2.name, false, false⟩
    else false

def CheckTypeCompatibility (t1 t2 : TypeN) : Bool :=
  CheckTypeCompatibilityFuel (t1.name.length + 1) t1 t2

/- SemanticAnalyzer::GetLiteralType.  value.front()/value.back() on an EMPTY value is an
   out-of-bounds access (std::string::front on an empty string), modelled as a crash. -/
def GetLiteralType (value : String) : Except Fault TypeN :=
  if value.data.contains '.' then Except.ok ⟨"float", false, false⟩
  else if value == "true" || value == "false" then Except.ok ⟨"bool", false, false⟩
  else
    match value.data with
    | [] => Except.error (Fault.crash "out-of-bounds: std::string::front on empty string")
    | c :: _ =>
      if c == '"' && value.data.getLast? == some '"' then Except.ok ⟨"string", false, false⟩
      else Except.ok ⟨"int", false, false⟩

/- SemanticAnalyzer::GetExpressionType.  Reads cached annotation fields; cloning a null
   cached type is a crash; any other node kind throws std::runtime_error (caught later
   by Analyze). -/
def GetExpressionType : ANode → Except Fault TypeN
  | ANode.identifier _ _ evaluatedType => CloneType evaluatedType
  | ANode.literal value => GetLiteralType value
  | ANode.binaryExpr _ _ _ evaluatedType => CloneType evaluatedType
  | ANode.funCall _ _ _ resolvedFunction =>
    match resolvedFunction with
    | none => Except.error (Fault.crash "null dereference: resolvedFunction is null")
    | some sym => CloneType sym.type
  | ANode.arrayLiteral _ evaluatedType => CloneType evaluatedType
  | _ => Except.error (Fault.thrown "Unsupported expression type")

/- SemanticAnalyzer::HandleVariableDeclaration (declaration pass). -/
def HandleVariableDeclaration : ANode → SemSt → Except Fault ANode × SemSt
  | ANode.varDecl name declaredType resolvedType initializer symbol, st =>
    (match st.scopeStack with
     | [] => (Except.error (Fault.crash "null dereference: currentScope() is null"), st)
     | sc :: rest =>
       if sc.any (fun p => p.1 == name) then
         (Except.ok (ANode.varDecl name declaredType resolvedType initializer symbol),
          ErrorS ("Duplicate variable declaration: " ++ name) st)
       else
         match declaredType with
         | none =>
           (Except.ok (ANode.varDecl name none resolvedType initializer symbol),
            ErrorS ("Missing type annotation for variable: " ++ name) st)
         | some dt =>
           let sym : Symb := ⟨SymbolKind.Variable, name, some dt, initializer.isSome⟩
           (Except.ok (ANode.varDecl name (some dt) resolvedType initializer (some sym)),
            ⟨scopeInsert name sym sc :: rest, st.errors, st.loopDepth, st.currentFunction⟩))
  | node, st => (Except.ok node, st)

/- SemanticAnalyzer::AddParameter, folded over the parameter list. -/
def AddParameters : List (String × TypeN) → SemSt → Except Fault Unit × SemSt
  | [], st => (Except.ok (), st)
  | (n, t) :: rest, st =>
    match AddSymbolS n ⟨SymbolKind.Variable, n, some t, false⟩ st with
    | (Except.ok _, st1) => AddParameters rest st1
    | err => err

mutual

/- SemanticAnalyzer::DeclarationPass.  The handler bodies (HandleProgramDeclaration,
   HandleFunctionDeclaration, HandleClassDeclaration) are inlined at their single call
   sites.  The default case does nothing: dynamic_cast<IHasDeclarations*> always yields
   null because no AST node type implements the IHasDeclarations interface. -/
def DeclarationPass : ANode → SemSt → Except Fault ANode × SemSt
  | ANode.program decls, st =>
    -- HandleProgramDeclaration
    (match DeclarationPassList decls (PushScopeS st) with
     | (Except.ok decls', st2) => (Except.ok (ANode.program decls'), PopScopeS st2)
     | (Except.error f, st2) => (Except.error f, st2))
  | ANode.funDecl name parameters returnType body _, st =>
    -- HandleFunctionDeclaration: symbol->type = CloneType(function->returnType.get())
    -- crashes when the function has no declared return type (null pointer).
    (match CloneType returnType with
     | Except.error f => (Except.error f, st)
     | Except.ok symType =>
       let sym : Symb := ⟨SymbolKind.Function, name, some symType, false⟩
       match AddSymbolS name sym st with
       | (Except.error f, st1) => (Except.error f, st1)
       | (Except.ok _, st1) =>
         match AddParameters parameters (PushScopeS st1) with
         | (Except.error f, st2) => (Except.error f, st2)
         | (Except.ok _, st2) =>
           (Except.ok (ANode.funDecl name parameters returnType body (some sym)),
            PushScopeS st2))
  | ANode.classDecl name body _, st =>
    -- HandleClassDeclaration: the class symbol's type pointer is never set (stays null).
    (let sym : Symb := ⟨SymbolKind.Class, name, none, false⟩
     match AddSymbolS name sym st with
     | (Except.error f, st1) => (Except.error f, st1)
     | (Except.ok _, st1) =>
       match body with
       | some (ANode.classBlock decls) =>
         (match DeclarationPassList decls (PushScopeS st1) with
          | (Except.ok decls', st2) =>
            (Except.ok (ANode.classDecl name (some (ANode.classBlock decls')) (some sym)),
             PopScopeS st2)
          | (Except.error f, st2) => (Except.error f, st2))
       | other =>
         (Except.ok (ANode.classDecl name other (some sym)), PopScopeS (PushScopeS st1)))
  | ANode.varDecl name declaredType resolvedType initializer symbol, st =>
    HandleVariableDeclaration (ANode.varDecl name declaredType resolvedType initializer symbol) st
  | node, st => (Except.ok node, st)

def DeclarationPassList : List ANode → SemSt → Except Fault (List ANode) × SemSt
  | [], st => (Except.ok [], st)
  | d :: ds, st =>
    match DeclarationPass d st with
    | (Except.error f, st1) => (Except.error f, st1)
    | (Except.ok d', st1) =>
      match DeclarationPassList ds st1 with
      | (Except.error f, st2) => (Except.error f, st2)
      | (Except.ok ds', st2) => (Except.ok (d' :: ds'), st2)

end

/- SemanticAnalyzer::ResolveVariableType (type-resolution pass; non-recursive):
   resolvedType = CloneType(declaredType). -/
def ResolveVariableType : ANode → SemSt → Except Fault ANode × SemSt
  | ANode.varDecl name none resolvedType initializer symbol, st =>
    (Except.ok (ANode.varDecl name none resolvedType initializer symbol),
     ErrorS ("Missing type annotation for variable: " ++ name) st)
  | ANode.varDecl name (some dt) _ initializer symbol, st =>
    (match initializer with
     | some e =>
       match GetExpressionType e with
       | Except.error f => (Except.error f, st)
       | Except.ok initType =>
         let st1 :=
           if CheckTypeCompatibility dt initType then st
           else ErrorS ("Type mismatch in variable '" ++ name ++ "'. Declared: "
             ++ dt.name ++ ", Inferred: " ++ initType.name) st
         (Except.ok (ANode.varDecl name (some dt) (some dt) initializer symbol), st1)
     | none => (Except.ok (ANode.varDecl name (some dt) (some dt) initializer symbol), st))
  | node, st => (Except.ok node, st)

/- SemanticAnalyzer::ResolveIdentifier: currentScope()->Lookup walks the scope chain;
   cloning the found symbol's type crashes when that type pointer is null (class
   symbols). -/
def ResolveIdentifier : ANode → SemSt → Except Fault ANode × SemSt
  | ANode.identifier name rs et, st =>
    (match st.scopeStack with
     | [] => (Except.error (Fault.crash "null dereference: currentScope() is null"), st)
     | _ :: _ =>
       match ScopeLookup name st.scopeStack with
       | some sym =>
         match CloneType sym.type with
         | Except.error f => (Except.error f, st)
         | Except.ok t => (Except.ok (ANode.identifier name (some sym) (some t)), st)
       | none =>
         (Except.ok (ANode.identifier name rs et),
          ErrorS ("Undefined identifier: " ++ name) st))
  | node, st => (Except.ok node, st)

mutual

/- SemanticAnalyzer::TypeResolutionPass.  ResolveFunctionType, ResolveBinaryExpression,
   HandleWhileLoop and HandleForLoop are inlined at their single call sites.  The default
   case does nothing: dynamic_cast<IHasChildren*> always yields null because no AST node
   type implements the IHasChildren interface — in particular a Program node is handled
   by the default case, so the pass never descends into top-level declarations. -/
def TypeResolutionPass : ANode → SemSt → Except Fault ANode × SemSt
  | node@(ANode.varDecl _ _ _ _ _), st => ResolveVariableType node st
  | ANode.funDecl name parameters returnType body symbol, st =>
    -- ResolveFunctionType: walk the body statements, then pop body and parameter scopes.
    (match body with
     | some (ANode.block stmts bscope) =>
       (match TypeResolutionPassList stmts st with
        | (Except.error f, st1) => (Except.error f, st1)
        | (Except.ok stmts', st1) =>
          (Except.ok (ANode.funDecl name parameters returnType
             (some (ANode.block stmts' bscope)) symbol),
           PopScopeS (PopScopeS st1)))
     | other =>
       (Except.ok (ANode.funDecl name parameters returnType other symbol),
        PopScopeS (PopScopeS st)))
  | ANode.binaryExpr left op right _, st =>
    -- ResolveBinaryExpression
    (match TypeResolutionPass left st with
     | (Except.error f, st1) => (Except.error f, st1)
     | (Except.ok left', st1) =>
       match TypeResolutionPass right st1 with
       | (Except.error f, st2) => (Except.error f, st2)
       | (Except.ok right', st2) =>
         match GetExpressionType left' with
         | Except.error f => (Except.error f, st2)
         | Except.ok leftType =>
           match GetExpressionType right' with
           | Except.error f => (Except.error f, st2)
           | Except.ok rightType =>
             if op = BinaryOperator.Assign then
               let st3 :=
                 if CheckTypeCompatibility leftType rightType then st2
                 else ErrorS "Assignment type mismatch" st2
               (Except.ok (ANode.binaryExpr left' op right' (some leftType)), st3)
             else
               let st3 :=
                 if CheckTypeCompatibility leftType rightType then st2
                 else ErrorS "Operand type mismatch in binary expression" st2
               let et : TypeN :=
                 match op with
                 | BinaryOperator.LogicalAnd | BinaryOperator.LogicalOr
                 | BinaryOperator.Equal | BinaryOperator.NotEqual
                 | BinaryOperator.Less | BinaryOperator.Greater
                 | BinaryOperator.LessEqual | BinaryOperator.GreaterEqual =>
                   ⟨"bool", false, false⟩
                 | _ => leftType
               (Except.ok (ANode.binaryExpr left' op right' (some et)), st3))
  | node@(ANode.identifier _ _ _), st => ResolveIdentifier node st
  | ANode.whileStmt condition body, st =>
    -- HandleWhileLoop
    (match TypeResolutionPass condition st with
     | (Except.error f, st1) => (Except.error f, st1)
     | (Except.ok condition', st1) =>
       match GetExpressionType condition' with
       | Except.error f => (Except.error f, st1)
       | Except.ok condType =>
         let st2 :=
           if condType.name == "bool" then st1
           else ErrorS "While condition must be boolean" st1
         let st3 : SemSt := ⟨st2.scopeStack, st2.errors, st2.loopDepth + 1, st2.currentFunction⟩
         match TypeResolutionPass body st3 with
         | (Except.error f, st4) => (Except.error f, st4)
         | (Except.ok body', st4) =>
           (Except.ok (ANode.whileStmt condition' body'),
            ⟨st4.scopeStack, st4.errors, st4.loopDepth - 1, st4.currentFunction⟩))
  | ANode.forStmt finit condition update body, st =>
    -- HandleForLoop: the condition's type is read WITHOUT resolving it first.
    (match (match finit with
            | some i =>
              (match TypeResolutionPass i st with
               | (Except.error f, st1) => (Except.error f, st1)
               | (Except.ok i', st1) => (Except.ok (some i'), st1))
            | none => (Except.ok none, st) :
              Except Fault (Option ANode) × SemSt) with
     | (Except.error f, st1) => (Except.error f, st1)
     | (Except.ok finit', st1) =>
       match GetExpressionType condition with
       | Except.error f => (Except.error f, st1)
       | Except.ok condType =>
         let st2 :=
           if condType.name == "bool" then st1
           else ErrorS "For loop condition must be boolean" st1
         match TypeResolutionPass update st2 with
         | (Except.error f, st3) => (Except.error f, st3)
         | (Except.ok update', st3) =>
           let st4 : SemSt := ⟨st3.scopeStack, st3.errors, st3.loopDepth + 1, st3.currentFunction⟩
           match TypeResolutionPass body st4 with
           | (Except.error f, st5) => (Except.error f, st5)
           | (Except.ok body', st5) =>
             (Except.ok (ANode.forStmt finit' condition update' body'),
              ⟨st5.scopeStack, st5.errors, st5.loopDepth - 1, st5.currentFunction⟩))
  | node, st => (Except.ok node, st)

def TypeResolutionPassList : List ANode → SemSt → Except Fault (List ANode) × SemSt
  | [], st => (Except.ok [], st)
  | d :: ds, st =>
    match TypeResolutionPass d st with
    | (Except.error f, st1) => (Except.error f, st1)
    | (Except.ok d', st1) =>
      match TypeResolutionPassList ds st1 with
      | (Except.error f, st2) => (Except.error f, st2)
      | (Except.ok ds', st2) => (Except.ok (d' :: ds'), st2)

end

/- SemanticAnalyzer::ValidateLoopControl: reads the loopDepth member during the
   validation pass. -/
def ValidateLoopControl (node : ANode) (st : SemSt) : SemSt :=
  if st.loopDepth = 0 then
    match node with
    | ANode.breakStmt => ErrorS "Break statement outside loop" st
    | _ => ErrorS "Continue statement outside loop" st
  else st

/- SemanticAnalyzer::ValidateReturn.  currentFunction is never assigned anywhere in the
   source, so the else branch is dead code (kept for faithfulness). -/
def ValidateReturn : ANode → SemSt → Except Fault ANode × SemSt
  | node@(ANode.returnStmt e), st =>
    (match st.currentFunction with
     | none => (Except.ok node, ErrorS "Return statement outside function" st)
     | some f =>
       match (match e with
              | some ex => GetExpressionType ex
              | none => Except.ok ⟨"void", false, false⟩) with
       | Except.error fa => (Except.error fa, st)
       | Except.ok returnType =>
         match CloneType f.returnType with
         | Except.error fa => (Except.error fa, st)
         | Except.ok frt =>
           if CheckTypeCompatibility frt returnType then (Except.ok node, st)
           else (Except.ok node, ErrorS ("Return type mismatch in function " ++ f.name) st))
  | node, st => (Except.ok node, st)

/- SemanticAnalyzer::CheckForReturns.  The default case finds no children:
   dynamic_cast<IHasChildren*> always yields null (no implementors), so even a Block
   containing a ReturnStatement reports false. -/
def CheckForReturns : ANode → Bool
  | ANode.returnStmt _ => true
  | ANode.ifStmt _ thenBranch elseBranch =>
    CheckForReturns thenBranch ||
      (match elseBranch with
       | some e => CheckForReturns e
       | none => false)
  | _ => false

/- SemanticAnalyzer::ValidateFunction. -/
def ValidateFunction : ANode → SemSt → Except Fault ANode × SemSt
  | node@(ANode.funDecl name _ _ body symbol), st =>
    (match symbol with
     | none => (Except.error (Fault.crash "null dereference: function symbol is null"), st)
     | some sym =>
       match sym.type with
       | none => (Except.error (Fault.crash "null dereference: symbol type is null"), st)
       | some rt =>
         if rt.name == "void" then (Except.ok node, st)
         else
           match body with
           | none => (Except.error (Fault.crash "null dereference: function body is null"), st)
           | some b =>
             if CheckForReturns b then (Except.ok node, st)
             else
               (Except.ok node,
                ErrorS ("Function '" ++ name ++ "' with return type '" ++ rt.name
                  ++ "' lacks return statement") st))
  | node, st => (Except.ok node, st)

/- SemanticAnalyzer::ValidationPass.  Non-recursive: the default case finds no children
   (dynamic_cast<IHasChildren*> always null), and no handled case recurses — a Program
   root falls into the default case, so nothing below it is ever validated. -/
def ValidationPass : ANode → SemSt → Except Fault ANode × SemSt
  | node@(ANode.returnStmt _), st => ValidateReturn node st
  | node@ANode.breakStmt, st => (Except.ok node, ValidateLoopControl node st)
  | node@ANode.continueStmt, st => (Except.ok node, ValidateLoopControl node st)
  | node@(ANode.funDecl _ _ _ _ _), st => ValidateFunction node st
  | node, st => (Except.ok node, st)

/- SemanticAnalyzer::Analyze: the three passes inside try/catch.  A thrown
   std::exception is caught (its message is appended to the errors and false is
   returned); a crash is not survivable and is surfaced as Except.error. -/
def AnalyzeCatch : Fault → SemSt → Except String (Bool × List String)
  | Fault.thrown msg, st => Except.ok (false, st.errors ++ [msg])
  | Fault.crash msg, _ => Except.error msg

def Analyze (root : ANode) : Except String (Bool × List String) :=
  let st0 : SemSt := ⟨[], [], 0, none⟩
  match DeclarationPass root st0 with
  | (Except.error f, st) => AnalyzeCatch f st
  | (Except.ok a1, st1) =>
    match TypeResolutionPass a1 st1 with
    | (Except.error f, st) => AnalyzeCatch f st
    | (Except.ok a2, st2) =>
      match ValidationPass a2 st2 with
      | (Except.error f, st) => AnalyzeCatch f st
      | (Except.ok _, st3) => Except.ok (st3.errors.isEmpty, st3.errors)

/- Run only the declaration pass from the initial analyzer state (for statements about
   the AST "after the declaration pass"). -/
def RunDeclarationPass (root : ANode) : Except Fault (ANode × SemSt) :=
  match DeclarationPass root (⟨[], [], 0, none⟩ : SemSt) with
  | (Except.ok a, st) => Except.ok (a, st)
  | (Except.error f, _) => Except.error f

/- ===================== Observers and concrete inputs for the claims ===================== -/

mutual

/- Observer: number of Block nodes reachable in an AST. -/
def CountBlocks : ANode → Nat
  | ANode.program decls => CountBlocksList decls
  | ANode.varDecl _ _ _ initializer _ => CountBlocksOpt initializer
  | ANode.funDecl _ _ _ body _ => CountBlocksOpt body
  | ANode.classDecl _ body _ => CountBlocksOpt body
  | ANode.enumDecl _ _ => 0
  | ANode.block stmts _ => 1 + CountBlocksList stmts
  | ANode.classBlock decls => CountBlocksList decls
  | ANode.exprStmt e => CountBlocks e
  | ANode.returnStmt e => CountBlocksOpt e
  | ANode.ifStmt c t e => CountBlocks c + CountBlocks t + CountBlocksOpt e
  | ANode.forStmt i c u b => CountBlocksOpt i + CountBlocks c + CountBlocks u + CountBlocks b
  | ANode.whileStmt c b => CountBlocks c + CountBlocks b
  | ANode.switchStmt e cs d => CountBlocks e + CountBlocksPairs cs + CountBlocksOpt d
  | ANode.memberAccess o _ => CountBlocks o
  | ANode.binaryExpr l _ r _ => CountBlocks l + CountBlocks r
  | ANode.unaryExpr _ o => CountBlocks o
  | ANode.literal _ => 0
  | ANode.identifier _ _ _ => 0
  | ANode.breakStmt => 0
  | ANode.continueStmt => 0
  | ANode.arrayLiteral es _ => CountBlocksList es
  | ANode.funCall _ args ct _ => CountBlocksList args + CountBlocksOpt ct

def CountBlocksList : List ANode → Nat
  | [] => 0
  | n :: ns => CountBlocks n + CountBlocksList ns

def CountBlocksOpt : Option ANode → Nat
  | none => 0
  | some n => CountBlocks n

def CountBlocksPairs : List (ANode × ANode) → Nat
  | [] => 0
  | (a, b) :: ps => CountBlocks a + CountBlocks b + CountBlocksPairs ps

end

mutual

/- Observer: every Block node reachable in an AST has blockScope = none. -/
def AllBlockScopesNone : ANode → Bool
  | ANode.program decls => AllBlockScopesNoneList decls
  | ANode.varDecl _ _ _ initializer _ => AllBlockScopesNoneOpt initializer
  | ANode.funDecl _ _ _ body _ => AllBlockScopesNoneOpt body
  | ANode.classDecl _ body _ => AllBlockScopesNoneOpt body
  | ANode.enumDecl _ _ => true
  | ANode.block stmts bscope => bscope.isNone && AllBlockScopesNoneList stmts
  | ANode.classBlock decls => AllBlockScopesNoneList decls
  | ANode.exprStmt e => AllBlockScopesNone e
  | ANode.returnStmt e => AllBlockScopesNoneOpt e
  | ANode.ifStmt c t e => AllBlockScopesNone c && AllBlockScopesNone t && AllBlockScopesNoneOpt e
  | ANode.forStmt i c u b =>
    AllBlockScopesNoneOpt i && AllBlockScopesNone c && AllBlockScopesNone u && AllBlockScopesNone b
  | ANode.whileStmt c b => AllBlockScopesNone c && AllBlockScopesNone b
  | ANode.switchStmt e cs d =>
    AllBlockScopesNone e && AllBlockScopesNonePairs cs && AllBlockScopesNoneOpt d
  | ANode.memberAccess o _ => AllBlockScopesNone o
  | ANode.binaryExpr l _ r _ => AllBlockScopesNone l && AllBlockScopesNone r
  | ANode.unaryExpr _ o => AllBlockScopesNone o
  | ANode.literal _ => true
  | ANode.identifier _ _ _ => true
  | ANode.breakStmt => true
  | ANode.continueStmt => true
  | ANode.arrayLiteral es _ => AllBlockScopesNoneList es
  | ANode.funCall _ args ct _ => AllBlockScopesNoneList args && AllBlockScopesNoneOpt ct

def AllBlockScopesNoneList : List ANode → Bool
  | [] => true
  | n :: ns => AllBlockScopesNone n && AllBlockScopesNoneList ns

def AllBlockScopesNoneOpt : Option ANode → Bool
  | none => true
  | some n => AllBlockScopesNone n

def AllBlockScopesNonePairs : List (ANode × ANode) → Bool
  | [] => true
  | (a, b) :: ps => AllBlockScopesNone a && AllBlockScopesNone b && AllBlockScopesNonePairs ps

end

/- The AST of the one-declaration program  let x: int = 3.14;  as the grammar prescribes
   (the parser produces a VariableDeclaration whose declared Type has isConst = true for
   let): one VariableDeclaration named x with declared type int and Literal initializer
   "3.14".  (Note: the lexer of this repository does not classify let as a keyword, so
   the AST is built directly; see claim C4.) -/
def declC1 : ANode :=
  ANode.varDecl "x" (some ⟨"int", false, true⟩) none (some (ANode.literal "3.14")) none

def astC1 : ANode := ANode.program [declC1]

/- Concrete sources for the other claims. -/
def srcC2 : String := "fun f() \x7b break; \x7d"

def srcC2r : String := "fun f(): int \x7b break; \x7d"

def srcC3 : String := "fun f(): int \x7b return 1; \x7d"

def srcC9 : String := "a < b < c;"

def srcC10 : String := "var s: string = \"\";"

/- Observer for the amended C3 statement: the AST after a successful declaration pass
   (on an abnormal termination the input AST is returned unchanged). -/
def DeclarationPassResult (node : ANode) (st : SemSt) : ANode :=
  match DeclarationPass node st with
  | (Except.ok n, _) => n
  | (Except.error _, _) => node

def astC3p : ANode :=
  ANode.program [ANode.funDecl "f" [] (some ⟨"int", false, false⟩)
    (some (ANode.block [ANode.returnStmt (some (ANode.literal "1"))] none)) none]

theorem ScanIdentifier_pos (st : LexSt) :
    ((ScanIdentifier st).1.line, (ScanIdentifier st).1.column)
      = ((ScanIdentifier st).2.line, (ScanIdentifier st).2.column) := rfl

theorem ScanNumber_pos (st : LexSt) :
    ((ScanNumber st).1.line, (ScanNumber st).1.column)
      = ((ScanNumber st).2.line, (ScanNumber st).2.column) := by
  unfold ScanNumber
  dsimp only
  split <;> rfl

theorem ScanString_pos (st : LexSt) :
    ((ScanString st).1.line, (ScanString st).1.column)
      = ((ScanString st).2.line, (ScanString st).2.column) := by
  unfold ScanString
  dsimp only
  split <;> rfl

theorem ScanOperator_pos (st : LexSt) :
    ((ScanOperator st).1.line, (ScanOperator st).1.column)
      = ((ScanOperator st).2.line, (ScanOperator st).2.column) := by
  unfold ScanOperator
  dsimp only
  split
  · rfl
  · split
    · rfl
    · split <;> rfl

theorem ScanPunctuation_pos (st : LexSt) :
    ((ScanPunctuation st).1.line, (ScanPunctuation st).1.column)
      = ((ScanPunctuation st).2.line, (ScanPunctuation st).2.column) := by
  unfold ScanPunctuation
  dsimp only
  split <;> rfl

theorem NextToken_pos (st0 : LexSt) :
    ((NextToken st0).1.line, (NextToken st0).1.column)
      = ((NextToken st0).2.line, (NextToken st0).2.column) := by
  unfold NextToken
  dsimp only
  split
  · rfl
  · split_ifs
    · exact ScanIdentifier_pos _
    · exact ScanNumber_pos _
    · exact ScanString_pos _
    · exact ScanOperator_pos _
    · exact ScanPunctuation_pos _
    · rfl

theorem TakeWhileSt_length (p : Char → Bool) (l : List Char) :
    ∀ line col, (TakeWhileSt p l line col).2.rest.length + (TakeWhileSt p l line col).1.length
      = l.length := by
  induction l with
  | nil => intro line col; simp [TakeWhileSt]
  | cons c rs ih =>
    intro line col
    by_cases hp : p c
    · simp only [TakeWhileSt, hp, if_true, List.length_cons]
      split
      · have := ih (line + 1) 1
        omega
      · have := ih line (col + 1)
        omega
    · simp [TakeWhileSt, hp]

theorem TakeWhileSt_rest_le (p : Char → Bool) (l : List Char) (line col : Nat) :
    (TakeWhileSt p l line col).2.rest.length ≤ l.length := by
  have := TakeWhileSt_length p l line col
  omega

theorem TakeWhileSt_rest_lt (p : Char → Bool) (c : Char) (rs : List Char) (line col : Nat)
    (hp : p c = true) :
    (TakeWhileSt p (c :: rs) line col).2.rest.length < (c :: rs).length := by
  have h1 := TakeWhileSt_rest_le p rs (line + 1) 1
  have h2 := TakeWhileSt_rest_le p rs line (col + 1)
  simp only [TakeWhileSt, hp, if_true, List.length_cons]
  split <;> omega

theorem SSL_nil (line col : Nat) : ScanStringLoop [] line col = ([], ⟨[], line, col⟩) := by
  rw [ScanStringLoop.eq_def]

theorem SSL_quote (rs : List Char) (line col : Nat) :
    ScanStringLoop ('"' :: rs) line col = ([], ⟨'"' :: rs, line, col⟩) := by
  rw [ScanStringLoop.eq_def]
  rfl

theorem SSL_backslash_nil (line col : Nat) :
    ScanStringLoop ['\\'] line col = (['\\'], ⟨[], line, col + 1⟩) := by
  rw [ScanStringLoop.eq_def]
  rfl

theorem SSL_backslash (d : Char) (rs : List Char) (line col : Nat) :
    ScanStringLoop ('\\' :: d :: rs) line col
      = ('\\' :: d ::
           (if d = '\n' then ScanStringLoop rs (line + 1) 1 else ScanStringLoop rs line (col + 2)).1,
         (if d = '\n' then ScanStringLoop rs (line + 1) 1 else ScanStringLoop rs line (col + 2)).2) := by
  rw [ScanStringLoop.eq_def]
  rfl

theorem SSL_other (c : Char) (rs : List Char) (line col : Nat)
    (h1 : ¬ c = '"') (h2 : ¬ c = '\\') :
    ScanStringLoop (c :: rs) line col
      = (c :: (if c = '\n' then ScanStringLoop rs (line + 1) 1 else ScanStringLoop rs line (col + 1)).1,
         (if c = '\n' then ScanStringLoop rs (line + 1) 1 else ScanStringLoop rs line (col + 1)).2) := by
  rw [ScanStringLoop.eq_def]
  simp only [if_neg h1, if_neg h2]

theorem ScanStringLoop_length (l : List Char) (line col : Nat) :
    (ScanStringLoop l line col).2.rest.length + (ScanStringLoop l line col).1.length
      = l.length := by
  induction l, line, col using ScanStringLoop.induct with
  | case1 line col => rw [SSL_nil]; rfl
  | case2 rs line col => rw [SSL_quote]; rfl
  | case3 line col h => rw [SSL_backslash_nil]; rfl
  | case4 line col c rs h ih1 ih2 =>
    rw [SSL_backslash]
    dsimp only
    split <;> simp only [List.length_cons] <;> omega
  | case5 c rs line col h1 h2 ih1 ih2 =>
    rw [SSL_other c rs line col h1 h2]
    dsimp only
    split <;> simp only [List.length_cons] <;> omega

theorem ScanStringLoop_rest_le (l : List Char) (line col : Nat) :
    (ScanStringLoop l line col).2.rest.length ≤ l.length := by
  have := ScanStringLoop_length l line col
  omega

theorem Advance_rest_lt (st : LexSt) (c : Char) (tl : List Char) (h : st.rest = c :: tl) :
    (Advance st).rest.length < st.rest.length := by
  unfold Advance
  rw [h]
  dsimp only
  split <;> simp

theorem Advance_rest_le (st : LexSt) : (Advance st).rest.length ≤ st.rest.length := by
  unfold Advance
  rcases h : st.rest with _ | ⟨c, rs⟩
  · dsimp only
    simp [h]
  · dsimp only
    split <;> simp

theorem ScanIdentifier_rest_lt (st : LexSt) (c : Char) (tl : List Char)
    (h : st.rest = c :: tl) (hc : (isalphaChar c || c = '_') = true) :
    (ScanIdentifier st).2.rest.length < st.rest.length := by
  have hp : (isalnumChar c || c = '_') = true := by
    simp only [isalnumChar, Bool.or_eq_true, decide_eq_true_eq] at hc ⊢
    tauto
  unfold ScanIdentifier
  rw [h]
  dsimp only
  exact TakeWhileSt_rest_lt _ c tl st.line st.column hp

theorem ScanNumber_rest_lt (st : LexSt) (c : Char) (tl : List Char)
    (h : st.rest = c :: tl) (hc : isdigitChar c = true) :
    (ScanNumber st).2.rest.length < st.rest.length := by
  have hlt : (TakeWhileSt isdigitChar st.rest st.line st.column).2.rest.length
      < st.rest.length := by
    conv_rhs => rw [h]
    rw [h]
    exact TakeWhileSt_rest_lt _ c tl st.line st.column hc
  unfold ScanNumber
  dsimp only
  split
  · rename_i heq
    have ha : (Advance (TakeWhileSt isdigitChar st.rest st.line st.column).2).rest.length
        < (TakeWhileSt isdigitChar st.rest st.line st.column).2.rest.length :=
      Advance_rest_lt _ _ _ heq
    have hb := TakeWhileSt_rest_le isdigitChar
      (Advance (TakeWhileSt isdigitChar st.rest st.line st.column).2).rest
      (Advance (TakeWhileSt isdigitChar st.rest st.line st.column).2).line
      (Advance (TakeWhileSt isdigitChar st.rest st.line st.column).2).column
    dsimp only
    omega
  · exact hlt

theorem ScanString_rest_lt (st : LexSt) (c : Char) (tl : List Char) (h : st.rest = c :: tl) :
    (ScanString st).2.rest.length < st.rest.length := by
  have ha : (Advance st).rest.length < st.rest.length := Advance_rest_lt st c tl h
  have hb := ScanStringLoop_rest_le (Advance st).rest (Advance st).line (Advance st).column
  unfold ScanString
  dsimp only
  split
  · dsimp only
    omega
  · have hc := Advance_rest_le (ScanStringLoop (Advance st).rest (Advance st).line (Advance st).column).2
    dsimp only
    omega

theorem ScanOperator_rest_lt (st : LexSt) (c : Char) (tl : List Char) (h : st.rest = c :: tl) :
    (ScanOperator st).2.rest.length < st.rest.length := by
  have ha : (Advance st).rest.length < st.rest.length := Advance_rest_lt st c tl h
  have hb := Advance_rest_le (Advance st)
  unfold ScanOperator
  rw [h]
  dsimp only
  have hlen : st.rest.length = tl.length + 1 := by rw [h]; rfl
  simp only [List.length_cons]
  split
  · dsimp only
    omega
  · split
    · dsimp only
      omega
    · dsimp only
      omega

theorem ScanPunctuation_rest_lt (st : LexSt) (c : Char) (tl : List Char) (h : st.rest = c :: tl) :
    (ScanPunctuation st).2.rest.length < st.rest.length := by
  have ha : (Advance st).rest.length < st.rest.length := Advance_rest_lt st c tl h
  have hlen : st.rest.length = tl.length + 1 := by rw [h]; rfl
  unfold ScanPunctuation
  rw [h]
  dsimp only
  simp only [List.length_cons]
  omega

theorem SkipWhitespace_rest_le (st : LexSt) :
    (SkipWhitespace st).rest.length ≤ st.rest.length :=
  TakeWhileSt_rest_le isspaceChar st.rest st.line st.column

theorem NextToken_progress (st0 : LexSt) :
    (NextToken st0).1.type = TokenType.EndOfFile ∨
    (NextToken st0).2.rest.length < st0.rest.length := by
  have hle := SkipWhitespace_rest_le st0
  unfold NextToken
  dsimp only
  rcases h : (SkipWhitespace st0).rest with _ | ⟨c, tl⟩
  · left
    simp [h]
  · right
    have hlen : (SkipWhitespace st0).rest.length = tl.length + 1 := by rw [h]; rfl
    simp only [h]
    split_ifs with h1 h2 h3 h4 h5
    · have := ScanIdentifier_rest_lt (SkipWhitespace st0) c tl h h1
      omega
    · have := ScanNumber_rest_lt (SkipWhitespace st0) c tl h h2
      omega
    · have := ScanString_rest_lt (SkipWhitespace st0) c tl h
      omega
    · have := ScanOperator_rest_lt (SkipWhitespace st0) c tl h
      omega
    · have := ScanPunctuation_rest_lt (SkipWhitespace st0) c tl h
      omega
    · have := Advance_rest_lt (SkipWhitespace st0) c tl h
      dsimp only
      omega

theorem TokenizeFuel_spec (fuel : Nat) :
    ∀ st : LexSt, st.rest.length < fuel →
    ∃ pre t, TokenizeFuel fuel st = pre ++ [t] ∧ t.type = TokenType.EndOfFile ∧
      ∀ u ∈ pre, u.type ≠ TokenType.EndOfFile := by
  induction fuel with
  | zero => intro st h; omega
  | succ n ih =>
    intro st h
    by_cases he : (NextToken st).1.type = TokenType.EndOfFile
    · refine ⟨[], (NextToken st).1, ?_, he, by simp⟩
      simp [TokenizeFuel, he]
    · rcases NextToken_progress st with hp | hp
      · exact absurd hp he
      · obtain ⟨pre, t, heq, ht, hpre⟩ := ih (NextToken st).2 (by omega)
        refine ⟨(NextToken st).1 :: pre, t, ?_, ht, ?_⟩
        · simp [TokenizeFuel, he, heq]
        · intro u hu
          rcases List.mem_cons.mp hu with h1 | h2
          · rw [h1]; exact he
          · exact hpre u h2

theorem ScanStringLoop_clean (content : List Char) :
    ∀ line col, ¬ '"' ∈ content → ¬ '\\' ∈ content →
    (ScanStringLoop content line col).1 = content ∧
    (ScanStringLoop content line col).2.rest = [] := by
  induction content with
  | nil => intro line col _ _; rw [SSL_nil]; exact ⟨rfl, rfl⟩
  | cons c rs ih =>
    intro line col hq hb
    have hc1 : ¬ c = '"' := by
      intro hx
      exact hq (hx ▸ List.mem_cons_self c rs)
    have hc2 : ¬ c = '\\' := by
      intro hx
      exact hb (hx ▸ List.mem_cons_self c rs)
    have hq' : ¬ '"' ∈ rs := fun hx => hq (List.mem_cons_of_mem c hx)
    have hb' : ¬ '\\' ∈ rs := fun hx => hb (List.mem_cons_of_mem c hx)
    rw [SSL_other c rs line col hc1 hc2]
    dsimp only
    split
    · have := ih (line + 1) 1 hq' hb'
      exact ⟨by rw [this.1], this.2⟩
    · have := ih line (col + 1) hq' hb'
      exact ⟨by rw [this.1], this.2⟩

theorem NextToken_empty (st : LexSt) (hrest : st.rest = []) :
    NextToken st = (⟨TokenType.EndOfFile, "", st.line, st.column⟩, st) := by
  cases st with
  | mk rest line col =>
    cases hrest
    simp [NextToken, SkipWhitespace, TakeWhileSt]

theorem C6am (content : List Char) (h1 : ¬ '"' ∈ content) (h2 : ¬ '\\' ∈ content) :
    tokensTL (Tokenize ⟨'"' :: content, 1, 1⟩)
      = [(TokenType.String, ⟨content.dropLast⟩), (TokenType.EndOfFile, "")] := by
  have hclean := ScanStringLoop_clean content 1 2 h1 h2
  have hadv : Advance ⟨'"' :: content, 1, 1⟩ = ⟨content, 1, 2⟩ := rfl
  have hss : ScanString ⟨'"' :: content, 1, 1⟩
      = (⟨TokenType.String, ⟨content.dropLast⟩,
          (ScanStringLoop content 1 2).2.line, (ScanStringLoop content 1 2).2.column⟩,
         (ScanStringLoop content 1 2).2) := by
    unfold ScanString
    rw [hadv]
    dsimp only
    rw [hclean.2]
    dsimp only
    rw [hclean.1]
  have hsw : SkipWhitespace ⟨'"' :: content, 1, 1⟩ = ⟨'"' :: content, 1, 1⟩ := by
    unfold SkipWhitespace
    simp [TakeWhileSt, isspaceChar]
  have hnt : NextToken ⟨'"' :: content, 1, 1⟩ = ScanString ⟨'"' :: content, 1, 1⟩ := by
    unfold NextToken
    rw [hsw]
    dsimp only
    simp [isalphaChar, isdigitChar]
  show tokensTL (TokenizeFuel (('"' :: content).length + 1) ⟨'"' :: content, 1, 1⟩) = _
  have hl : ('"' :: content).length + 1 = content.length + 1 + 1 := by simp
  rw [hl]
  simp only [TokenizeFuel]
  rw [hnt, hss]
  dsimp only
  rw [NextToken_empty _ hclean.2]
  simp [tokensTL]

theorem DP_blockScopes_both :
    (∀ (node : ANode) (st : SemSt), ∀ node' st',
       AllBlockScopesNone node = true → DeclarationPass node st = (Except.ok node', st') →
       AllBlockScopesNone node' = true) ∧
    (∀ (ds : List ANode) (st : SemSt), ∀ ds' st',
       AllBlockScopesNoneList ds = true → DeclarationPassList ds st = (Except.ok ds', st') →
       AllBlockScopesNoneList ds' = true) := by
  refine DeclarationPass.mutual_induct
    (fun node st => ∀ node' st', AllBlockScopesNone node = true →
       DeclarationPass node st = (Except.ok node', st') → AllBlockScopesNone node' = true)
    (fun ds st => ∀ ds' st', AllBlockScopesNoneList ds = true →
       DeclarationPassList ds st = (Except.ok ds', st') → AllBlockScopesNoneList ds' = true)
    ?_ ?_ ?_ ?_ ?_ ?_ ?_ ?_ ?_ ?_ ?_ ?_ ?_ ?_ ?_ ?_
  · -- program, list succeeds
    intro decls st decls' st2 hlist IH node' st' habs heq
    rw [DeclarationPass.eq_def] at heq
    dsimp only at heq
    rw [hlist] at heq
    injection heq with ha hb
    injection ha with ha
    subst ha
    simp only [AllBlockScopesNone] at habs ⊢
    exact IH decls' st2 habs hlist
  · -- program, list errors (contradiction with heq)
    intro decls st f st2 hlist IH node' st' habs heq
    rw [DeclarationPass.eq_def] at heq
    dsimp only at heq
    rw [hlist] at heq
    simp at heq
  · -- funDecl, CloneType errors
    intro name parameters returnType body symbol st f hclone node' st' habs heq
    rw [DeclarationPass.eq_def] at heq
    dsimp only at heq
    rw [hclone] at heq
    simp at heq
  · -- funDecl, AddSymbolS errors
    intro name parameters returnType body symbol st symType hclone sym f st2 hadd node' st' habs heq
    rw [DeclarationPass.eq_def] at heq
    dsimp only at heq
    rw [hclone] at heq
    dsimp only at heq
    rw [hadd] at heq
    simp at heq
  · -- funDecl, AddParameters errors
    intro name parameters returnType body symbol st symType hclone sym a st2 hadd f st3 hpar node' st' habs heq
    rw [DeclarationPass.eq_def] at heq
    dsimp only at heq
    rw [hclone] at heq
    dsimp only at heq
    rw [hadd] at heq
    dsimp only at heq
    rw [hpar] at heq
    simp at heq
  · -- funDecl, success: body unchanged
    intro name parameters returnType body symbol st symType hclone sym a st2 hadd b st3 hpar node' st' habs heq
    rw [DeclarationPass.eq_def] at heq
    dsimp only at heq
    rw [hclone] at heq
    dsimp only at heq
    rw [hadd] at heq
    dsimp only at heq
    rw [hpar] at heq
    injection heq with ha hb
    injection ha with ha
    subst ha
    simp only [AllBlockScopesNone] at habs ⊢
    exact habs
  · -- classDecl, AddSymbolS errors
    intro name body symbol st sym f st2 hadd node' st' habs heq
    rw [DeclarationPass.eq_def] at heq
    dsimp only at heq
    rw [hadd] at heq
    simp at heq
  · -- classDecl, classBlock body, list succeeds
    intro name symbol st sym a st2 hadd decls decls' st3 hlist IH node' st' habs heq
    rw [DeclarationPass.eq_def] at heq
    dsimp only at heq
    rw [hadd] at heq
    dsimp only at heq
    rw [hlist] at heq
    injection heq with ha hb
    injection ha with ha
    subst ha
    simp only [AllBlockScopesNone, AllBlockScopesNoneOpt] at habs ⊢
    exact IH decls' st3 habs hlist
  · -- classDecl, classBlock body, list errors
    intro name symbol st sym a st2 hadd decls f st3 hlist IH node' st' habs heq
    rw [DeclarationPass.eq_def] at heq
    dsimp only at heq
    rw [hadd] at heq
    dsimp only at heq
    rw [hlist] at heq
    simp at heq
  · -- classDecl, other body
    intro name symbol st sym a st2 hadd other hother node' st' habs heq
    rw [DeclarationPass.eq_def] at heq
    dsimp only at heq
    rw [hadd] at heq
    dsimp only at heq
    rcases other with _ | ob
    · dsimp only at heq
      injection heq with ha hb
      injection ha with ha
      subst ha
      simpa using habs
    · rcases hob : ob with decls2 | _ | _ | _ | _ | _ | cds | _ | _ | _ | _ | _ | _ | _ | _ | _ | _ | _ | _ | _ | _ | _
      case classBlock =>
        exact absurd (by rw [hob]) (hother cds)
      all_goals
        subst hob
        dsimp only at heq
        injection heq with ha hb
        injection ha with ha
        subst ha
        simpa [AllBlockScopesNone] using habs
  · -- varDecl
    intro name declaredType resolvedType initializer symbol st node' st' habs heq
    rw [DeclarationPass.eq_def] at heq
    dsimp only at heq
    rw [HandleVariableDeclaration.eq_def] at heq
    dsimp only at heq
    rcases hss : st.scopeStack with _ | ⟨sc, rest⟩ <;> rw [hss] at heq <;> dsimp only at heq
    · simp at heq
    · split at heq
      · injection heq with ha hb
        injection ha with ha
        subst ha
        exact habs
      · rcases declaredType with _ | dt <;> dsimp only at heq
        · injection heq with ha hb
          injection ha with ha
          subst ha
          exact habs
        · injection heq with ha hb
          injection ha with ha
          subst ha
          simpa [AllBlockScopesNone] using habs
  · -- default case: no children are visited
    intro node st h1 h2 h3 h4 node' st' habs heq
    cases node with
    | program decls => exact (h1 decls rfl).elim
    | funDecl name parameters returnType body symbol => exact (h2 name parameters returnType body symbol rfl).elim
    | classDecl name body symbol => exact (h3 name body symbol rfl).elim
    | varDecl name declaredType resolvedType initializer symbol =>
      exact (h4 name declaredType resolvedType initializer symbol rfl).elim
    | _ =>
      rw [DeclarationPass.eq_def] at heq
      dsimp only at heq
      injection heq with ha hb
      injection ha with ha
      subst ha
      exact habs
  · -- list nil
    intro st ds' st' habs heq
    rw [DeclarationPassList.eq_def] at heq
    dsimp only at heq
    injection heq with ha hb
    injection ha with ha
    subst ha
    exact habs
  · -- list cons, head errors
    intro d ds st f st1 hd IH ds' st' habs heq
    rw [DeclarationPassList.eq_def] at heq
    dsimp only at heq
    rw [hd] at heq
    simp at heq
  · -- list cons, head ok, tail errors
    intro d ds st d' st1 hd f st2 htl IHd IHtl ds' st' habs heq
    rw [DeclarationPassList.eq_def] at heq
    dsimp only at heq
    rw [hd] at heq
    dsimp only at heq
    rw [htl] at heq
    simp at heq
  · -- list cons, both ok
    intro d ds st d' st1 hd ds2 st2 htl IHd IHtl ds' st' habs heq
    rw [DeclarationPassList.eq_def] at heq
    dsimp only at heq
    rw [hd] at heq
    dsimp only at heq
    rw [htl] at heq
    injection heq with ha hb
    injection ha with ha
    subst ha
    simp only [AllBlockScopesNoneList, Bool.and_eq_true] at habs ⊢
    exact ⟨IHd d' st1 habs.1 hd, IHtl ds2 st2 habs.2 htl⟩

/- ===================== Claim theorems ===================== -/

/-- Claim C1 (code_bug): the claim says Analyze on the program  let x: int = 3.14;
returns false with exactly one Semantic error containing Type mismatch and naming int
and float.  The code diverges: Analyze returns true with no errors, because the
type-resolution pass's default case requires nodes to implement the IHasChildren
interface — which no AST node type does — so the pass never descends below the Program
root and ResolveVariableType is never invoked on the declaration.  The second conjunct
shows the claim is right about the checking logic itself: ResolveVariableType applied
directly to the declaration produces exactly the claimed diagnostic. -/
theorem C1_analyze_accepts_type_mismatch :
    Analyze astC1 = Except.ok (true, []) ∧
    (ResolveVariableType declC1 ⟨[], [], 0, none⟩).2.errors
      = ["Type mismatch in variable 'x'. Declared: int, Inferred: float"] :=
  ⟨rfl, rfl⟩

/-- Claim C2 (code_bug): the claim says analysis of  fun f() \x7b break; \x7d  reports one
Break statement outside loop error, that every break/continue outside a loop is
flagged, and that one inside a loop is not.  The code diverges: (1) the declaration
pass dereferences the null returnType of f (CloneType(nullptr)), so Analyze crashes
on this program; (2) with a declared return type added, Analyze returns true with no
errors, because the validation pass never descends below the Program root (no AST node
implements IHasChildren) — no break is ever validated; (3) ValidateLoopControl itself
does produce the claimed error when invoked with loopDepth = 0, but loopDepth is always
0 during pass 3 (it is only incremented inside pass 2), so a break inside a loop would
be flagged too, were it ever visited. -/
theorem C2_break_outside_loop_unreported :
    (ParseSource srcC2).map Analyze
      = Except.ok (Except.error "null dereference: CloneType of null TypeNode") ∧
    (ParseSource srcC2r).map Analyze = Except.ok (Except.ok (true, [])) ∧
    (ValidateLoopControl ANode.breakStmt ⟨[], [], 0, none⟩).errors
      = ["Break statement outside loop"] ∧
    (ValidateLoopControl ANode.breakStmt ⟨[], [], 1, none⟩).errors = [] :=
  ⟨rfl, rfl, rfl, rfl⟩

/-- Claim C3 counterexample (corrected): for the parsed program
fun f(): int \x7b return 1; \x7d  there is exactly one reachable Block node after the
declaration pass, and its blockScope is still null — refuting the claim that every
reachable Block has a non-null blockScope whose parent is the enclosing scope. -/
theorem C3_blockScope_null_counterexample :
    ParseSource srcC3 = Except.ok astC3p ∧
    (RunDeclarationPass astC3p).map (fun r => (CountBlocks r.1, AllBlockScopesNone r.1))
      = Except.ok (1, true) :=
  ⟨rfl, rfl⟩

/-- Claim C3 amended (corrected): after the declaration pass, every Block node reachable
in the AST still has a null blockScope — the pass pushes scopes on the analyzer's own
stack but never assigns them to Block nodes (no traversal even reaches a Block, since
the traversal interfaces have no implementors).  Stated as preservation: if every
reachable Block of the input has blockScope = none (as in every parser-produced AST,
whose BlockNode constructor initializes it to null), the same holds for the output. -/
theorem C3_declaration_pass_keeps_blockScope_null (node : ANode) (st : SemSt)
    (h : AllBlockScopesNone node = true) :
    AllBlockScopesNone (DeclarationPassResult node st) = true := by
  unfold DeclarationPassResult
  split
  · rename_i n stx heq
    exact DP_blockScopes_both.1 node st n stx h heq
  · exact h

/-- Witness for the amended C3 theorem at the parsed program fun f(): int
\x7b return 1; \x7d  from the initial analyzer state. -/
theorem C3_declaration_pass_keeps_blockScope_null_witness :
    AllBlockScopesNone astC3p = true ∧
    AllBlockScopesNone (DeclarationPassResult astC3p ⟨[], [], 0, none⟩) = true :=
  ⟨by decide, C3_declaration_pass_keeps_blockScope_null astC3p ⟨[], [], 0, none⟩ (by decide)⟩

/-- Claim C4 (code_bug): the claim says every word in the reserved set including let,
const, switch, case and default lexes as a Keyword.  IsKeyword omits these five words,
so they lex as Identifier; the parser, however, demands Keyword tokens for them
(MatchKeyword checks the token type first), so even  let x: int = 1;  dies with
Expected declaration. — the lexer contradicts its own parser. -/
theorem C4_reserved_words_not_keywords :
    IsKeyword "let" = false ∧ IsKeyword "const" = false ∧ IsKeyword "switch" = false ∧
    IsKeyword "case" = false ∧ IsKeyword "default" = false ∧
    tokensTL (TokenizeSource "let") = [(TokenType.Identifier, "let"), (TokenType.EndOfFile, "")] ∧
    parseErrMsg (ParseSource "let x: int = 1;") = some "Expected declaration." := by
  refine ⟨by decide, by decide, by decide, by decide, by decide, by decide, rfl⟩

/-- Claim C5 (code_bug): the claim says the lexer recognizes the digraphs ==, !=, <=, >=,
&&, ||, <<, >> and treats ^ as an operator character.  The code recognizes only ==, !=
and the unspecified <>; the list digraphs <=, >=, &&, ||, <<, >> lex as two single-char
Operator tokens, and ^ is not an operator character at all (it lexes Unknown).  The
parser requires the single-token forms (ParseRelational / ParseLogicalAnd /
ParseLogicalOr compare whole lexemes), so  var x: bool = a && b;  fails to parse —
the lexer contradicts its own parser. -/
theorem C5_digraphs_not_recognized :
    tokensTL (TokenizeSource "<=")
      = [(TokenType.Operator, "<"), (TokenType.Operator, "="), (TokenType.EndOfFile, "")] ∧
    tokensTL (TokenizeSource ">=")
      = [(TokenType.Operator, ">"), (TokenType.Operator, "="), (TokenType.EndOfFile, "")] ∧
    tokensTL (TokenizeSource "&&")
      = [(TokenType.Operator, "&"), (TokenType.Operator, "&"), (TokenType.EndOfFile, "")] ∧
    tokensTL (TokenizeSource "||")
      = [(TokenType.Operator, "|"), (TokenType.Operator, "|"), (TokenType.EndOfFile, "")] ∧
    tokensTL (TokenizeSource "<<")
      = [(TokenType.Operator, "<"), (TokenType.Operator, "<"), (TokenType.EndOfFile, "")] ∧
    tokensTL (TokenizeSource ">>")
      = [(TokenType.Operator, ">"), (TokenType.Operator, ">"), (TokenType.EndOfFile, "")] ∧
    tokensTL (TokenizeSource "<>") = [(TokenType.Operator, "<>"), (TokenType.EndOfFile, "")] ∧
    tokensTL (TokenizeSource "^") = [(TokenType.Unknown, "^"), (TokenType.EndOfFile, "")] ∧
    tokensTL (TokenizeSource "==") = [(TokenType.Operator, "=="), (TokenType.EndOfFile, "")] ∧
    tokensTL (TokenizeSource "!=") = [(TokenType.Operator, "!="), (TokenType.EndOfFile, "")] ∧
    parseErrMsg (ParseSource "var x: bool = a && b;")
      = some "Expected ';' after variable declaration." := by
  refine ⟨by decide, by decide, by decide, by decide, by decide, by decide, by decide,
    by decide, by decide, by decide, rfl⟩

/-- Claim C6 counterexample (corrected): lexing the unterminated string "oops (no closing
quote) yields a String token — not Unknown as claimed — whose lexeme oop has even lost
its final character, and no error is reported (the lexer has no diagnostics channel). -/
theorem C6_unterminated_string_counterexample :
    tokensTL (TokenizeSource "\"oops")
      = [(TokenType.String, "oop"), (TokenType.EndOfFile, "")] ∧
    TokenType.String ≠ TokenType.Unknown :=
  ⟨by decide, by decide⟩

/-- Claim C6 amended (corrected): on an input consisting of an opening double quote
followed by content with no quote and no backslash, the lexer reports no error and
produces a String token whose lexeme is the content with its FINAL CHARACTER DROPPED
(substr(start, offset - start - 1) with no closing quote consumed); scanning continues
and terminates with the EndOfFile token. -/
theorem C6_unterminated_string_amended (content : List Char)
    (h1 : ¬ '"' ∈ content) (h2 : ¬ '\\' ∈ content) :
    tokensTL (Tokenize ⟨'"' :: content, 1, 1⟩)
      = [(TokenType.String, ⟨content.dropLast⟩), (TokenType.EndOfFile, "")] :=
  C6am content h1 h2

/-- Witness for the amended C6 theorem at the content oops. -/
theorem C6_unterminated_string_amended_witness :
    (¬ '"' ∈ "oops".data) ∧ (¬ '\\' ∈ "oops".data) ∧
    tokensTL (Tokenize ⟨'"' :: "oops".data, 1, 1⟩)
      = [(TokenType.String, ⟨"oops".data.dropLast⟩), (TokenType.EndOfFile, "")] :=
  ⟨by decide, by decide,
   C6_unterminated_string_amended "oops".data (by decide) (by decide)⟩

/-- Claim C7 counterexample (corrected): lexing ab produces an Identifier token whose
reported column is 3 — the position after the lexeme — not 1, the 1-based column of
the token's first byte as the claim states. -/
theorem C7_token_position_counterexample :
    TokenizeSource "ab"
      = [⟨TokenType.Identifier, "ab", 1, 3⟩, ⟨TokenType.EndOfFile, "", 1, 3⟩] ∧
    (3 : Nat) ≠ 1 :=
  ⟨by decide, by decide⟩

/-- Claim C7 amended (corrected): every token's reported line and column equal the
lexer's position immediately AFTER the token's last consumed byte (the C++ builds each
Token from the line/column members after the scan loop), not the position of the
token's first byte. -/
theorem C7_token_position_amended (st0 : LexSt) :
    (NextToken st0).1.line = (NextToken st0).2.line ∧
    (NextToken st0).1.column = (NextToken st0).2.column := by
  have h := NextToken_pos st0
  exact ⟨congrArg Prod.fst h, congrArg Prod.snd h⟩

/-- Claim C8 (confirmed): for every input string, tokenization terminates (Tokenize is a
total function whose fuel bound is proven sufficient) and the resulting token sequence
is some prefix containing no EndOfFile token followed by exactly one final EndOfFile
token. -/
theorem C8_lexer_totality_single_eof (s : String) :
    ∃ pre t, TokenizeSource s = pre ++ [t] ∧ t.type = TokenType.EndOfFile ∧
      ∀ u ∈ pre, u.type ≠ TokenType.EndOfFile := by
  unfold TokenizeSource Tokenize
  exact TokenizeFuel_spec _ _ (Nat.lt_succ_self _)

/-- Claim C9 (confirmed): the relational tier is non-associative — ParseRelational
consumes at most one relational operator.  On the tokens of  a < b < c;  it returns
Less(a, b) with the cursor stopped at the second < (index 3), and ParseStatement on the
same tokens rejects the chain with the diagnostic Expected statement. (at line 1,
column 8); at the top level the program is likewise rejected rather than parsed into a
nested relational BinaryExpression. -/
theorem C9_relational_non_chaining :
    ((ParseRelationalExpressionF 100).run ⟨TokenizeSource srcC9, 0⟩).map
        (fun r => (r.1, r.2.current))
      = Except.ok (ANode.binaryExpr (ANode.identifier "a" none none) BinaryOperator.Less
          (ANode.identifier "b" none none) none, 3) ∧
    ((ParseStatementF 100).run ⟨TokenizeSource srcC9, 0⟩).map (fun r => r.1)
      = Except.error ⟨1, 8, "Expected statement."⟩ ∧
    parseErrMsg (ParseSource srcC9) = some "Expected declaration." :=
  ⟨rfl, rfl, rfl⟩

/-- Claim C10 (code_bug): the claim says literal type inference is total with no
out-of-bounds access, even for the empty literal value.  The parser does produce a
LiteralNode with empty value from the source  var s: string = "";  (the lexer's String
lexeme excludes the quotes), and GetLiteralType on the empty value evaluates
value.front() on an empty std::string — an out-of-bounds access (undefined behavior),
modelled as a crash — instead of returning a type.  On any non-empty literal value the
inference does return a type (float shown as a sample). -/
theorem C10_empty_literal_out_of_bounds :
    ParseSource srcC10
      = Except.ok (ANode.program [ANode.varDecl "s" (some ⟨"string", false, false⟩) none
          (some (ANode.literal "")) none]) ∧
    GetLiteralType ""
      = Except.error (Fault.crash "out-of-bounds: std::string::front on empty string") ∧
    GetLiteralType "3.14" = Except.ok ⟨"float", false, false⟩ :=
  ⟨rfl, rfl, rfl⟩
